import Mathlib

/-! # go1fl-4-sprint-final: record parsing and calorie computation

A shallow embedding of `internal/daysteps/daysteps.go` and
`internal/spentcalories/spentcalories.go`.

Conventions of the embedding:

* a Go `string` is a Lean `String`; the inputs are taken to be valid UTF-8, so
  that cutting at the one-byte comma and trimming Unicode white space can be
  done on characters;
* Go `int` and `time.Duration` (an `int64` count of nanoseconds) are `Int`;
  the standard library routines that produce them carry the 64-bit range
  checks explicitly;
* `float64` is the exact rational field `ℚ`: the arithmetic is taken exactly,
  and NaN and the infinities are outside the model; the functions of package
  `spentcalories` are embedded a second time, under `F64`, for a weight and a
  height that are a number or NaN, and agree with the first on numbers;
* a Go `(value, error)` result is `Except Err value`; an error keeps the
  arguments formatted into its message and the sentinel wrapped with `%w`.
-/

namespace Sprint

/-! ## Package `common` -/

/-- Modelled from the spec: the sentinel errors of package `common`, whose file
is not among the sources. The callers wrap exactly these five names with `%w`;
they are taken to be pairwise distinct values. -/
inductive Sentinel
  | ErrSliceLen
  | ErrParseInt
  | ErrParamLimitExceeded
  | ErrParseDuration
  | ErrEmptyString
  deriving DecidableEq, Repr

/-- Modelled from the spec: the numeric constants of package `common`, whose
file is not among the sources. Their values are parameters of the model. -/
structure Common where
  StepLength : ℚ
  StepLengthCoefficient : ℚ
  MinKm : ℚ
  MinInH : ℚ
  WalkingCaloriesCoefficient : ℚ

/-! ## Standard library: `time.Duration` -/

/-- Go `time.Duration`: a signed count of nanoseconds. -/
abbrev Duration := Int

def Nanosecond : Duration := 1
def Microsecond : Duration := 1000 * Nanosecond
def Millisecond : Duration := 1000 * Microsecond
def Second : Duration := 1000 * Millisecond
def Minute : Duration := 60 * Second
def Hour : Duration := 60 * Minute

/-- Go `Duration.Hours`: whole hours plus the remaining nanoseconds as a
fraction of an hour. -/
def Duration.Hours (d : Duration) : ℚ :=
  let hour := Int.tdiv d Hour
  let nsec := Int.tmod d Hour
  (hour : ℚ) + (nsec : ℚ) / (60 * 60 * 1000000000)

/-- Go `Duration.Minutes`: whole minutes plus the remaining nanoseconds as a
fraction of a minute. -/
def Duration.Minutes (d : Duration) : ℚ :=
  let min := Int.tdiv d Minute
  let nsec := Int.tmod d Minute
  (min : ℚ) + (nsec : ℚ) / (60 * 1000000000)

/-! ## Standard library: `strings.Split`, `strings.TrimSpace` -/

/-- The fields of a character sequence cut at every occurrence of `sep`: one
more field than there are separators, empty fields included. -/
def splitFields (sep : Char) : List Char → List (List Char)
  | [] => [[]]
  | c :: cs =>
    if c = sep then [] :: splitFields sep cs
    else
      match splitFields sep cs with
      | f :: fs => (c :: f) :: fs
      | [] => [[c]]

/-- Go `strings.Split(s, ",")`. -/
def Split (s : String) : List String :=
  (splitFields ',' s.data).map String.mk

/-- Go `unicode.IsSpace`: the code points with the White_Space property. -/
def isSpace (c : Char) : Bool :=
  let n := c.toNat
  (9 ≤ n && n ≤ 13) || n = 32 || n = 0x85 || n = 0xA0 || n = 0x1680 ||
  (0x2000 ≤ n && n ≤ 0x200A) || n = 0x2028 || n = 0x2029 || n = 0x202F ||
  n = 0x205F || n = 0x3000

/-- Go `strings.TrimSpace`: drop the leading and the trailing white space. -/
def TrimSpace (s : String) : String :=
  String.mk ((s.data.dropWhile isSpace).reverse.dropWhile isSpace).reverse

/-! ## Standard library: `strconv.Atoi` -/

/-- The byte is one of `'0'..'9'`. -/
def isDigit (c : Char) : Bool := decide ('0' ≤ c) && decide (c ≤ '9')

/-- The value of a decimal digit. -/
def digitVal (c : Char) : Nat := c.toNat - '0'.toNat

/-- The number written by a sequence of decimal digits. -/
def digitsValue (ds : List Char) : Nat :=
  ds.foldl (fun x c => 10 * x + digitVal c) 0

/-- Go `strconv.Atoi` for a 64-bit `int`: an optional sign, then at least one
decimal digit and nothing else, the value within the `int64` range. `none` is
a non-nil error (the callers do not look at which). -/
def Atoi (s : String) : Option Int :=
  let neg := s.data.head? = some '-'
  let ds := if s.data.head? = some '-' ∨ s.data.head? = some '+' then s.data.tail else s.data
  if ds = [] then none
  else if !ds.all isDigit then none
  else
    let n := digitsValue ds
    if neg then
      if n ≤ 2 ^ 63 then some (-(n : Int)) else none
    else
      if n < 2 ^ 63 then some (n : Int) else none

/-! ## Standard library: `time.ParseDuration` -/

/-- Go `leadingInt`: consume the leading `[0-9]*` onto the accumulator `x`;
`none` when the value leaves the range `0 .. 2^63`. -/
def leadingInt : List Char → Nat → Option (Nat × List Char)
  | [], x => some (x, [])
  | c :: cs, x =>
    if c < '0' ∨ c > '9' then some (x, c :: cs)
    else if x > 2 ^ 63 / 10 then none
    else if x * 10 + c.toNat - '0'.toNat > 2 ^ 63 then none
    else leadingInt cs (x * 10 + c.toNat - '0'.toNat)

/-- Go `leadingFraction`: consume the leading `[0-9]*` of a fraction; on
overflow it stops accumulating digits instead of failing. Returns the digits
read as a number, the matching power of ten, and the rest. -/
def leadingFraction : List Char → Nat → Nat → Bool → Nat × Nat × List Char
  | [], x, scale, _ => (x, scale, [])
  | c :: cs, x, scale, overflow =>
    if c < '0' ∨ c > '9' then (x, scale, c :: cs)
    else if overflow then leadingFraction cs x scale true
    else if x > (2 ^ 63 - 1) / 10 then leadingFraction cs x scale true
    else if x * 10 + c.toNat - '0'.toNat > 2 ^ 63 then leadingFraction cs x scale true
    else leadingFraction cs (x * 10 + c.toNat - '0'.toNat) (scale * 10) false

/-- Go `unitMap`: nanoseconds per unit. -/
def unitMap (u : String) : Option Nat :=
  if u = "ns" then some 1
  else if u = "us" then some 1000
  else if u = "µs" then some 1000
  else if u = "μs" then some 1000
  else if u = "ms" then some 1000000
  else if u = "s" then some 1000000000
  else if u = "m" then some 60000000000
  else if u = "h" then some 3600000000000
  else none

/-- The byte may start or continue a number: `[0-9.]`. -/
def isNumChar (c : Char) : Bool := c = '.' || isDigit c

/-- The `for s != ""` loop of Go `time.ParseDuration`, one `<number><unit>`
group per round, adding onto the unsigned total `d` (a `uint64`, hence the
reduction modulo `2^64`). The fractional part, which Go computes in `float64`,
is taken exactly and truncated. A round consumes at least one character, so
`fuel` above the length of `s` is never used up. -/
def ParseDuration.loop : Nat → List Char → Nat → Option Nat
  | 0, _, _ => none
  | fuel + 1, s, d =>
    match s with
    | [] => some d
    | c :: _ =>
      if !isNumChar c then none
      else
        match leadingInt s 0 with
        | none => none
        | some (v, s1) =>
          let pre := s.length != s1.length
          let frac : Nat × Nat × List Char :=
            if s1.head? = some '.' then leadingFraction s1.tail 0 1 false else (0, 1, s1)
          let post := s1.head? = some '.' && s1.tail.length != frac.2.2.length
          if !pre && !post then none
          else
            let u := frac.2.2.takeWhile (fun c => !isNumChar c)
            if u = [] then none
            else
              match unitMap (String.mk u) with
              | none => none
              | some unit =>
                if v > 2 ^ 63 / unit then none
                else
                  let w := if frac.1 > 0 then v * unit + frac.1 * unit / frac.2.1 else v * unit
                  if frac.1 > 0 && w > 2 ^ 63 then none
                  else if (d + w) % 2 ^ 64 > 2 ^ 63 then none
                  else ParseDuration.loop fuel (frac.2.2.dropWhile (fun c => !isNumChar c)) ((d + w) % 2 ^ 64)

/-- Go `time.ParseDuration`: `[-+]?([0-9]*(\.[0-9]*)?[a-z]+)+`, or a signed
`0`. `none` is a non-nil error (the callers do not look at which). -/
def ParseDuration (s : String) : Option Duration :=
  let neg := s.data.head? = some '-'
  let r := if s.data.head? = some '-' ∨ s.data.head? = some '+' then s.data.tail else s.data
  if r = ['0'] then some 0
  else if r = [] then none
  else
    match ParseDuration.loop (r.length + 1) r 0 with
    | none => none
    | some d =>
      if neg then some (-(d : Int))
      else if d > 2 ^ 63 - 1 then none
      else some (d : Int)

/-! ## Standard library: `fmt` -/

/-- Go `fmt` verb `%.2f` at an exact value: the value rounded to two decimals,
ties to even, with a leading minus sign for a negative value. -/
def fmtF2 (x : ℚ) : String :=
  let y := |x| * 100
  let fl := ⌊y⌋.toNat
  let n := if y - fl > 1 / 2 ∨ (y - fl = 1 / 2 ∧ fl % 2 = 1) then fl + 1 else fl
  (if x < 0 then "-" else "") ++ Nat.repr (n / 100) ++ "." ++
    Nat.repr (n % 100 / 10) ++ Nat.repr (n % 10)

/-- Go `fmt` verb `%d` at an `int`. -/
def fmtD (n : Int) : String := toString n

/-! ## Errors -/

/-- The errors built with `fmt.Errorf` in the two packages, one constructor per
message, holding the values formatted into it.

* `sliceLen`: "slice after string %q split = %v with length %d, expected length = N: %w"
* `parseSteps`: "string representing steps = %q: %w"
* `stepsLimit`: "steps number = %d,  expected non-negative and non-zero steps number: %w"
* `activityEmpty`: "activity must be set: %w"
* `parseDuration`: "string representing duration = %q: %w"
* `durationLimit`: "duration = %v, expected non-negative and non-zero duration: %w"
* `weightLimit`: "weight = %.2f,  expected non-negative and non-zero weight: %w"
* `heightLimit`: "height = %.2f,  expected non-negative and non-zero height: %w"
* `unknownActivity`:
  "неизвестный тип тренировки: activity = %q, expected activity = ['Ходьба', 'Бег']: %w" -/
inductive Err
  | sliceLen (data : String) (dataSl : List String) (len expected : Nat)
  | parseSteps (field : String)
  | stepsLimit (steps : Int)
  | activityEmpty
  | parseDuration (field : String)
  | durationLimit (duration : Duration)
  | weightLimit (weight : ℚ)
  | heightLimit (height : ℚ)
  | unknownActivity (activity : String)
  deriving DecidableEq

deriving instance DecidableEq for Except

/-- The sentinel each error wraps with `%w`: what `errors.Is` finds in it. -/
def Err.kind : Err → Sentinel
  | .sliceLen _ _ _ _ => .ErrSliceLen
  | .parseSteps _ => .ErrParseInt
  | .stepsLimit _ => .ErrParamLimitExceeded
  | .activityEmpty => .ErrEmptyString
  | .parseDuration _ => .ErrParseDuration
  | .durationLimit _ => .ErrParamLimitExceeded
  | .weightLimit _ => .ErrParamLimitExceeded
  | .heightLimit _ => .ErrParamLimitExceeded
  | .unknownActivity _ => .ErrParamLimitExceeded

/-! ## Package `daysteps`: the parser -/

/-- Go `parsePackage`: parses a string like "678,0h50m" to the number of steps
and the duration. -/
def parsePackage (data : String) : Except Err (Int × Duration) :=
  let dataSl := Split data
  if dataSl.length ≠ 2 then
    .error (.sliceLen data dataSl dataSl.length 2)
  else
    match Atoi (dataSl.getD 0 "") with
    | none => .error (.parseSteps (dataSl.getD 0 ""))
    | some steps =>
      if steps ≤ 0 then .error (.stepsLimit steps)
      else
        match ParseDuration (dataSl.getD 1 "") with
        | none => .error (.parseDuration (dataSl.getD 1 ""))
        | some duration =>
          if duration ≤ 0 then .error (.durationLimit duration)
          else .ok (steps, duration)

/-! ## Package `spentcalories` -/

/-- Go `parseTraining`: parses a string like "3456,Ходьба,3h00m" to the number
of steps, the activity type and the duration. -/
def parseTraining (data : String) : Except Err (Int × String × Duration) :=
  let dataSl := Split data
  if dataSl.length ≠ 3 then
    .error (.sliceLen data dataSl dataSl.length 3)
  else
    match Atoi (dataSl.getD 0 "") with
    | none => .error (.parseSteps (dataSl.getD 0 ""))
    | some steps =>
      if steps ≤ 0 then .error (.stepsLimit steps)
      else
        let activity := TrimSpace (dataSl.getD 1 "")
        if activity.utf8ByteSize = 0 then .error .activityEmpty
        else
          match ParseDuration (dataSl.getD 2 "") with
          | none => .error (.parseDuration (dataSl.getD 2 ""))
          | some duration =>
            if duration ≤ 0 then .error (.durationLimit duration)
            else .ok (steps, activity, duration)

/-- Go `distance`: the distance in km from the number of steps and the height. -/
def distance (k : Common) (steps : Int) (height : ℚ) : ℚ :=
  let stepLength := k.StepLengthCoefficient * height
  let distanceM := stepLength * (steps : ℚ)
  let distanceKm := distanceM / k.MinKm
  distanceKm

/-- Go `meanSpeed`: the mean speed from the number of steps, the height and the
duration of the activity. -/
def meanSpeed (k : Common) (steps : Int) (height : ℚ) (duration : Duration) : ℚ :=
  if steps ≤ 0 then 0
  else
    let d := distance k steps height
    let hours := duration.Hours
    if hours ≤ 0 then 0
    else d / hours

/-- Go `RunningSpentCalories`: the calories spent running; an error when a
parameter is out of its limits. -/
def RunningSpentCalories (k : Common) (steps : Int) (weight height : ℚ)
    (duration : Duration) : Except Err ℚ :=
  if steps ≤ 0 then .error (.stepsLimit steps)
  else if weight ≤ 0 then .error (.weightLimit weight)
  else if height ≤ 0 then .error (.heightLimit height)
  else if duration ≤ 0 then .error (.durationLimit duration)
  else
    let mSpeed := meanSpeed k steps height duration
    let durationInMinutes := duration.Minutes
    .ok ((weight * mSpeed * durationInMinutes) / k.MinInH)

/-- Go `WalkingSpentCalories`: the calories spent walking; an error when a
parameter is out of its limits. -/
def WalkingSpentCalories (k : Common) (steps : Int) (weight height : ℚ)
    (duration : Duration) : Except Err ℚ :=
  match RunningSpentCalories k steps weight height duration with
  | .error err => .error err
  | .ok c => .ok (c * k.WalkingCaloriesCoefficient)

/-- Go `TrainingInfo`: the message about a training from the data string and
the weight and height of the user, or the error of the parsing or of the
computation. The Go pair `(string, error)` is kept as a pair, `none` being the
nil error. -/
def TrainingInfo (k : Common) (data : String) (weight height : ℚ) : String × Option Err :=
  match parseTraining data with
  | .error err => ("", some err)
  | .ok (steps, activity, duration) =>
    match (if activity = "Ходьба" then some (WalkingSpentCalories k steps weight height duration)
        else if activity = "Бег" then some (RunningSpentCalories k steps weight height duration)
        else none) with
    | none => ("", some (.unknownActivity activity))
    | some (.error err) => ("", some err)
    | some (.ok calories) =>
      let dist := distance k steps height
      let mSpeed := meanSpeed k steps height duration
      ("Тип тренировки: " ++ activity ++ "\n" ++
        "Длительность: " ++ fmtF2 duration.Hours ++ " ч.\n" ++
        "Дистанция: " ++ fmtF2 dist ++ " км.\n" ++
        "Скорость: " ++ fmtF2 mSpeed ++ " км/ч\n" ++
        "Сожгли калорий: " ++ fmtF2 calories ++ "\n", none)

/-! ## Package `daysteps`: the message -/

/-- Go `DayActionInfo`: the message about the steps, the length of the trip
and the calories of a day, or the empty string (the errors are only logged). -/
def DayActionInfo (k : Common) (data : String) (weight height : ℚ) : String :=
  match parsePackage data with
  | .error _ => ""
  | .ok (steps, duration) =>
    if steps ≤ 0 then ""
    else
      let distanceM := (steps : ℚ) * k.StepLength
      let distanceKm := distanceM / k.MinKm
      match WalkingSpentCalories k steps weight height duration with
      | .error _ => ""
      | .ok calories =>
        "Количество шагов: " ++ fmtD steps ++ ".\n" ++
          "Дистанция составила " ++ fmtF2 distanceKm ++ " км.\n" ++
          "Вы сожгли " ++ fmtF2 calories ++ " ккал.\n"


/-! ## `float64` arguments that may be NaN

The definitions above take a `float64` to be a number. The guards of
`RunningSpentCalories` compare the weight and the height with `<= 0`, which is
false of NaN; the definitions below embed the same functions of package
`spentcalories` for a weight and a height that are a number or NaN. -/

/-- A Go `float64` value: a number, taken exactly, or NaN. Rounding and the
infinities stay outside the model. -/
inductive Float64
  | num (q : ℚ)
  | nan
  deriving DecidableEq

/-- Go `x * y` on `float64`: NaN when an operand is NaN. -/
def Float64.mul : Float64 → Float64 → Float64
  | .num a, .num b => .num (a * b)
  | _, _ => .nan

/-- Go `x / y` on `float64`: NaN when an operand is NaN. -/
def Float64.div : Float64 → Float64 → Float64
  | .num a, .num b => .num (a / b)
  | _, _ => .nan

instance : Mul Float64 := ⟨Float64.mul⟩

instance : Div Float64 := ⟨Float64.div⟩

/-- Go `x <= 0` on `float64`: false when `x` is NaN. -/
def Float64.leZero : Float64 → Bool
  | .num a => decide (a ≤ 0)
  | .nan => false

/-- Go `x > 0` on `float64`: false when `x` is NaN. -/
def Float64.gtZero : Float64 → Bool
  | .num a => decide (0 < a)
  | .nan => false

/-- The number a `float64` holds, for the message of an error raised under a
guard `x <= 0`, which NaN does not reach (`0` is a filler for NaN). -/
def Float64.toRat : Float64 → ℚ
  | .num a => a
  | .nan => 0

/-- Go `fmt` verb `%.2f` on `float64`: the text `NaN` for NaN. -/
def Float64.fmtF2 : Float64 → String
  | .num a => Sprint.fmtF2 a
  | .nan => "NaN"

/-- Go `distance` for a height that may be NaN. -/
def F64.distance (k : Common) (steps : Int) (height : Float64) : Float64 :=
  let stepLength := Float64.num k.StepLengthCoefficient * height
  let distanceM := stepLength * Float64.num (steps : ℚ)
  let distanceKm := distanceM / Float64.num k.MinKm
  distanceKm

/-- Go `meanSpeed` for a height that may be NaN. -/
def F64.meanSpeed (k : Common) (steps : Int) (height : Float64) (duration : Duration) :
    Float64 :=
  if steps ≤ 0 then Float64.num 0
  else
    let d := F64.distance k steps height
    let hours := duration.Hours
    if hours ≤ 0 then Float64.num 0
    else d / Float64.num hours

/-- Go `RunningSpentCalories` for a weight and a height that may be NaN. -/
def F64.RunningSpentCalories (k : Common) (steps : Int) (weight height : Float64)
    (duration : Duration) : Except Err Float64 :=
  if steps ≤ 0 then .error (.stepsLimit steps)
  else if weight.leZero then .error (.weightLimit weight.toRat)
  else if height.leZero then .error (.heightLimit height.toRat)
  else if duration ≤ 0 then .error (.durationLimit duration)
  else
    let mSpeed := F64.meanSpeed k steps height duration
    let durationInMinutes := Float64.num duration.Minutes
    .ok ((weight * mSpeed * durationInMinutes) / Float64.num k.MinInH)

/-- Go `WalkingSpentCalories` for a weight and a height that may be NaN. -/
def F64.WalkingSpentCalories (k : Common) (steps : Int) (weight height : Float64)
    (duration : Duration) : Except Err Float64 :=
  match F64.RunningSpentCalories k steps weight height duration with
  | .error err => .error err
  | .ok c => .ok (c * Float64.num k.WalkingCaloriesCoefficient)

/-- Go `TrainingInfo` for a weight and a height that may be NaN; the Go pair
`(string, error)` is kept as a pair, `none` being the nil error. -/
def F64.TrainingInfo (k : Common) (data : String) (weight height : Float64) :
    String × Option Err :=
  match parseTraining data with
  | .error err => ("", some err)
  | .ok (steps, activity, duration) =>
    match (if activity = "Ходьба" then
          some (F64.WalkingSpentCalories k steps weight height duration)
        else if activity = "Бег" then
          some (F64.RunningSpentCalories k steps weight height duration)
        else none) with
    | none => ("", some (.unknownActivity activity))
    | some (.error err) => ("", some err)
    | some (.ok calories) =>
      let dist := F64.distance k steps height
      let mSpeed := F64.meanSpeed k steps height duration
      ("Тип тренировки: " ++ activity ++ "\n" ++
        "Длительность: " ++ Sprint.fmtF2 duration.Hours ++ " ч.\n" ++
        "Дистанция: " ++ dist.fmtF2 ++ " км.\n" ++
        "Скорость: " ++ mSpeed.fmtF2 ++ " км/ч\n" ++
        "Сожгли калорий: " ++ calories.fmtF2 ++ "\n", none)

/-! ## The words of the specification -/

/-- A valid base-10 integer literal in the words of the specification: an
optional sign followed by decimal digits, at least one, the number written
lying within the range of a 64-bit `int`. -/
def validIntLiteral (s : String) : Bool :=
  let signed := s.data.head? = some '-' ∨ s.data.head? = some '+'
  let digits := if signed then s.data.tail else s.data
  let value : Int :=
    if s.data.head? = some '-' then -(digitsValue digits : Int) else (digitsValue digits : Int)
  !digits.isEmpty && digits.all isDigit &&
    decide (-(2 : Int) ^ 63 ≤ value) && decide (value ≤ 2 ^ 63 - 1)

/-- A blank field in the words of the specification: empty, or white space
only. -/
def isBlank (s : String) : Bool := s.data.all isSpace

/-! ## Sample constants -/

/-- A sample assignment of the constants of package `common`, for the concrete
instances below. -/
def sampleCommon : Common :=
  { StepLength := 65 / 100
    StepLengthCoefficient := 45 / 100
    MinKm := 1000
    MinInH := 60
    WalkingCaloriesCoefficient := 1 / 2 }

/-! ## Lemmas on the library routines -/

theorem splitFields_ne_nil (sep : Char) (cs : List Char) : splitFields sep cs ≠ [] := by
  induction cs with
  | nil => simp [splitFields]
  | cons c cs ih =>
    unfold splitFields
    split
    · simp
    · split <;> simp

theorem splitFields_of_not_mem (sep : Char) (f : List Char) (h : sep ∉ f) :
    splitFields sep f = [f] := by
  induction f with
  | nil => rfl
  | cons c cs ih =>
    have hc : c ≠ sep := fun e => h (by simp [e])
    have hcs : sep ∉ cs := fun e => h (by simp [e])
    simp [splitFields, hc, ih hcs]

theorem splitFields_append (sep : Char) (f r : List Char) (h : sep ∉ f) :
    splitFields sep (f ++ sep :: r) = f :: splitFields sep r := by
  induction f with
  | nil => simp [splitFields]
  | cons c cs ih =>
    have hc : c ≠ sep := fun e => h (by simp [e])
    have hcs : sep ∉ cs := fun e => h (by simp [e])
    simp [splitFields, hc, ih hcs]

/-- The number of fields is one more than the number of separators. -/
theorem splitFields_length (sep : Char) (cs : List Char) :
    (splitFields sep cs).length = cs.count sep + 1 := by
  induction cs with
  | nil => rfl
  | cons c cs ih =>
    unfold splitFields
    by_cases hc : c = sep
    · subst hc; simp [ih]
    · have hne : (c == sep) = false := by simpa using hc
      rw [if_neg hc, List.count_cons, hne]
      cases hsp : splitFields sep cs with
      | nil => exact absurd hsp (splitFields_ne_nil sep cs)
      | cons f fs => rw [hsp] at ih; simpa using ih

theorem Split_two (a b : String) (ha : ',' ∉ a.data) (hb : ',' ∉ b.data) :
    Split (a ++ "," ++ b) = [a, b] := by
  have h : (a ++ "," ++ b).data = a.data ++ ',' :: b.data := by
    simp [String.data_append]
  simp [Split, h, splitFields_append _ _ _ ha, splitFields_of_not_mem _ _ hb]

theorem Split_three (a b c : String) (ha : ',' ∉ a.data) (hb : ',' ∉ b.data)
    (hc : ',' ∉ c.data) : Split (a ++ "," ++ b ++ "," ++ c) = [a, b, c] := by
  have h : (a ++ "," ++ b ++ "," ++ c).data = a.data ++ ',' :: (b.data ++ ',' :: c.data) := by
    simp [String.data_append]
  simp [Split, h, splitFields_append _ _ _ ha, splitFields_append _ _ _ hb,
    splitFields_of_not_mem _ _ hc]

theorem Duration.Hours_eq (d : Duration) : d.Hours = (d : ℚ) / 3600000000000 := by
  have h := Int.tdiv_add_tmod d Hour
  have hq : ((Hour * Int.tdiv d Hour + Int.tmod d Hour : Int) : ℚ) = (d : ℚ) := by rw [h]
  have hH : ((Hour : Int) : ℚ) = 3600000000000 := by
    norm_num [Hour, Minute, Second, Millisecond, Microsecond, Nanosecond]
  push_cast at hq
  rw [hH] at hq
  unfold Duration.Hours
  simp only []
  rw [← hq]
  ring

theorem Duration.Minutes_eq (d : Duration) : d.Minutes = (d : ℚ) / 60000000000 := by
  have h := Int.tdiv_add_tmod d Minute
  have hq : ((Minute * Int.tdiv d Minute + Int.tmod d Minute : Int) : ℚ) = (d : ℚ) := by rw [h]
  have hM : ((Minute : Int) : ℚ) = 60000000000 := by
    norm_num [Minute, Second, Millisecond, Microsecond, Nanosecond]
  push_cast at hq
  rw [hM] at hq
  unfold Duration.Minutes
  simp only []
  rw [← hq]
  ring

theorem Duration.Hours_pos_iff (d : Duration) : 0 < d.Hours ↔ 0 < d := by
  rw [Duration.Hours_eq]
  constructor
  · intro h
    have : (0 : ℚ) < (d : ℚ) := by
      by_contra hn
      push_neg at hn
      have : (d : ℚ) / 3600000000000 ≤ 0 := div_nonpos_of_nonpos_of_nonneg hn (by norm_num)
      linarith
    exact_mod_cast this
  · intro h
    have : (0 : ℚ) < (d : ℚ) := by exact_mod_cast h
    positivity

theorem Duration.Minutes_pos_iff (d : Duration) : 0 < d.Minutes ↔ 0 < d := by
  rw [Duration.Minutes_eq]
  constructor
  · intro h
    have : (0 : ℚ) < (d : ℚ) := by
      by_contra hn
      push_neg at hn
      have : (d : ℚ) / 60000000000 ≤ 0 := div_nonpos_of_nonpos_of_nonneg hn (by norm_num)
      linarith
    exact_mod_cast this
  · intro h
    have : (0 : ℚ) < (d : ℚ) := by exact_mod_cast h
    positivity


theorem isDigit_ne_sign (c : Char) (h : isDigit c = true) : c ≠ '-' ∧ c ≠ '+' := by
  constructor <;> (intro e; subst e; revert h; decide)

/-- An unsigned, non-empty run of decimal digits within the `int64` range is
accepted by `Atoi` with the number it writes. -/
theorem Atoi_digits (ds : List Char) (hne : ds ≠ []) (hd : ds.all isDigit = true)
    (hr : digitsValue ds < 2 ^ 63) : Atoi (String.mk ds) = some (digitsValue ds : Int) := by
  cases ds with
  | nil => exact absurd rfl hne
  | cons c cs =>
    have hc : isDigit c = true := by
      simp only [List.all_cons, Bool.and_eq_true] at hd
      exact hd.1
    obtain ⟨h1, h2⟩ := isDigit_ne_sign c hc
    simp only [Atoi, List.head?_cons, Option.some.injEq, h1, h2, or_self, if_false, hd,
      Bool.not_true, hr, if_true]
    simp

/-- A run of decimal digits holds no comma. -/
theorem digits_no_comma (ds : List Char) (hd : ds.all isDigit = true) : ',' ∉ ds := by
  intro h
  have := List.all_eq_true.mp hd ',' h
  revert this
  decide

theorem utf8ByteSize_eq_zero_iff (s : String) : s.utf8ByteSize = 0 ↔ s = "" := by
  obtain ⟨l⟩ := s
  cases l with
  | nil => simp [String.utf8ByteSize, String.utf8ByteSize.go]
  | cons c cs =>
    have hc : 0 < c.utf8Size := Char.utf8Size_pos c
    constructor
    · intro h
      simp only [String.utf8ByteSize, String.utf8ByteSize.go] at h
      omega
    · intro h
      have := congrArg String.data h
      simp at this

theorem dropWhile_head_not (p : Char → Bool) (l : List Char) (c : Char)
    (h : (l.dropWhile p).head? = some c) : p c = false := by
  have := List.head?_dropWhile_not p l
  rw [h] at this
  exact this

/-- The trimmed text neither starts nor ends with white space. -/
theorem TrimSpace_ends (s : String) :
    (∀ c, (TrimSpace s).data.head? = some c → isSpace c = false) ∧
    (∀ c, (TrimSpace s).data.getLast? = some c → isSpace c = false) := by
  constructor
  · intro c hc
    simp only [TrimSpace] at hc
    have hpre : ((s.data.dropWhile isSpace).reverse.dropWhile isSpace).reverse <+:
        s.data.dropWhile isSpace := List.rdropWhile_prefix isSpace _
    obtain ⟨t, ht⟩ := hpre
    cases hx : ((s.data.dropWhile isSpace).reverse.dropWhile isSpace).reverse with
    | nil => rw [hx] at hc; simp at hc
    | cons a as =>
      rw [hx] at hc ht
      simp only [List.head?_cons, Option.some.injEq] at hc
      subst hc
      apply dropWhile_head_not isSpace s.data
      rw [← ht]
      rfl
  · intro c hc
    simp only [TrimSpace, List.getLast?_reverse] at hc
    exact dropWhile_head_not isSpace _ c hc


theorem leadingInt_length (s : List Char) : ∀ (x v : Nat) (r : List Char),
    leadingInt s x = some (v, r) → r.length ≤ s.length := by
  induction s with
  | nil =>
    intro x v r h
    simp only [leadingInt, Option.some.injEq, Prod.mk.injEq] at h
    rw [← h.2]
  | cons c cs ih =>
    intro x v r h
    unfold leadingInt at h
    split at h
    · simp only [Option.some.injEq, Prod.mk.injEq] at h
      rw [← h.2]
    · split at h
      · cases h
      · split at h
        · cases h
        · have := ih _ v r h
          simp only [List.length_cons]
          omega

theorem leadingFraction_length (s : List Char) : ∀ (x scale : Nat) (o : Bool),
    (leadingFraction s x scale o).2.2.length ≤ s.length := by
  induction s with
  | nil => intro x scale o; simp [leadingFraction]
  | cons c cs ih =>
    intro x scale o
    unfold leadingFraction
    split
    · simp
    · split
      · exact Nat.le_succ_of_le (ih _ _ _)
      · split
        · exact Nat.le_succ_of_le (ih _ _ _)
        · split
          · exact Nat.le_succ_of_le (ih _ _ _)
          · exact Nat.le_succ_of_le (ih _ _ _)

theorem dropWhile_length_lt (p : Char → Bool) (l : List Char) (h : l.takeWhile p ≠ []) :
    (l.dropWhile p).length < l.length := by
  have h1 : (l.takeWhile p).length + (l.dropWhile p).length = l.length := by
    rw [← List.length_append, List.takeWhile_append_dropWhile]
  have h2 : 0 < (l.takeWhile p).length := List.length_pos.mpr h
  omega

/-- The loop of `ParseDuration` does not depend on the fuel once the fuel
exceeds the length of the text: the fuel is never used up. -/
theorem ParseDuration.loop_fuel (n : Nat) : ∀ (m : Nat) (s : List Char) (d : Nat),
    s.length < n → s.length < m → ParseDuration.loop n s d = ParseDuration.loop m s d := by
  induction n with
  | zero => intro m s d hn; omega
  | succ n ih =>
    intro m s d hn hm
    cases m with
    | zero => omega
    | succ m =>
      cases s with
      | nil => simp [ParseDuration.loop]
      | cons c cs =>
        rw [ParseDuration.loop, ParseDuration.loop]
        simp only []
        cases hli : leadingInt (c :: cs) 0 with
        | none => rfl
        | some vr =>
          obtain ⟨v, s1⟩ := vr
          simp only []
          have hs1 := leadingInt_length _ _ _ _ hli
          have hfl : (if s1.head? = some '.' then leadingFraction s1.tail 0 1 false
              else (0, 1, s1)).2.2.length ≤ s1.length := by
            split
            · exact le_trans (leadingFraction_length _ _ _ _) (by simp)
            · exact le_refl _
          generalize (if s1.head? = some '.' then leadingFraction s1.tail 0 1 false
              else (0, 1, s1)) = frac at hfl ⊢
          by_cases hu : frac.2.2.takeWhile (fun c => !isNumChar c) = []
          · simp only [hu, if_true]
          · have hdl := dropWhile_length_lt _ _ hu
            simp only [List.length_cons] at hn hm hs1
            have hrec : ∀ d1, ParseDuration.loop n (frac.2.2.dropWhile (fun c => !isNumChar c)) d1 =
                ParseDuration.loop m (frac.2.2.dropWhile (fun c => !isNumChar c)) d1 :=
              fun d1 => ih m _ d1 (by omega) (by omega)
            simp only [hrec]

theorem append_ne_empty (a b : String) (h : a ≠ "") : a ++ b ≠ "" := by
  intro e
  apply h
  have hd := congrArg String.data e
  rw [String.data_append] at hd
  have : a.data = [] := (List.append_eq_nil.mp hd).1
  exact String.ext this

theorem fmtF2_three : fmtF2 3 = "3.00" := by
  have h : (|(3 : ℚ)| * 100) = ((300 : ℕ) : ℚ) := by norm_num
  unfold fmtF2
  simp only [h, Int.floor_natCast, Int.toNat_ofNat]
  norm_num
  decide

/-- `Atoi` fails exactly on the texts that are no valid integer literal. -/
theorem Atoi_eq_none_iff (s : String) : Atoi s = none ↔ validIntLiteral s = false := by
  unfold Atoi validIntLiteral
  simp only []
  generalize (if s.data.head? = some '-' ∨ s.data.head? = some '+' then s.data.tail
    else s.data) = ds
  by_cases he : ds = []
  · subst he
    simp
  · by_cases hd : ds.all isDigit = true
    · have hemp : ds.isEmpty = false := by
        cases ds with
        | nil => exact absurd rfl he
        | cons a as => rfl
      by_cases hneg : s.data.head? = some '-'
      · simp only [he, hd, hneg, hemp, if_true, if_false, Bool.not_true, Bool.not_false,
          Bool.true_and, Bool.false_eq_true]
        simp
        omega
      · simp only [he, hd, hneg, hemp, if_true, if_false, Bool.not_true, Bool.not_false,
          Bool.true_and, Bool.false_eq_true]
        simp
        omega
    · simp [he, hd]

/-- The trimmed text is empty exactly for a blank field. -/
theorem TrimSpace_eq_empty_iff (s : String) : TrimSpace s = "" ↔ isBlank s = true := by
  unfold TrimSpace isBlank
  constructor
  · intro h
    have hd : ((s.data.dropWhile isSpace).reverse.dropWhile isSpace).reverse = [] :=
      congrArg String.data h
    rw [List.reverse_eq_nil_iff, List.dropWhile_eq_nil_iff] at hd
    have hx : s.data.dropWhile isSpace = [] := by
      cases hX : s.data.dropWhile isSpace with
      | nil => rfl
      | cons a as =>
        have h1 : isSpace a = false := dropWhile_head_not isSpace s.data a (by rw [hX]; rfl)
        have h2 : isSpace a = true := hd a (by rw [hX]; simp)
        rw [h1] at h2
        cases h2
    rw [List.dropWhile_eq_nil_iff] at hx
    exact List.all_eq_true.mpr hx
  · intro h
    have hx : s.data.dropWhile isSpace = [] :=
      List.dropWhile_eq_nil_iff.mpr (List.all_eq_true.mp h)
    rw [hx]
    rfl

/-! ## The parser -/

/-- C1: for a steps-only input `s,d` whose two fields hold no comma, where `d`
is a duration literal that `time.ParseDuration` reads as `dur > 0` and `s` an
integer literal that `strconv.Atoi` reads as `steps > 0`, `parsePackage`
succeeds and returns exactly `steps` and `dur`. In particular an unsigned run
of decimal digits whose value lies in `1 .. 2^63 - 1`, the positive range of a
64-bit `int`, is returned as that value. -/
theorem parsePackage_wellformed (d : String) (dur : Duration) (hd : ',' ∉ d.data)
    (hdur : ParseDuration d = some dur) (hdpos : 0 < dur) :
    (∀ (s : String) (steps : Int), ',' ∉ s.data → Atoi s = some steps → 0 < steps →
      parsePackage (s ++ "," ++ d) = .ok (steps, dur)) ∧
    (∀ ds : List Char, ds ≠ [] → ds.all isDigit = true → 0 < digitsValue ds →
      digitsValue ds < 2 ^ 63 →
      parsePackage (String.mk ds ++ "," ++ d) = .ok ((digitsValue ds : Int), dur)) := by
  have main : ∀ (s : String) (steps : Int), ',' ∉ s.data → Atoi s = some steps → 0 < steps →
      parsePackage (s ++ "," ++ d) = .ok (steps, dur) := by
    intro s steps hs hsteps hpos
    have hsp := Split_two s d hs hd
    simp [parsePackage, hsp, hsteps, hdur, not_le.mpr hpos, not_le.mpr hdpos]
  refine ⟨main, ?_⟩
  intro ds hne hdig hpos hr
  exact main (String.mk ds) _ (digits_no_comma ds hdig) (Atoi_digits ds hne hdig hr)
    (by exact_mod_cast hpos)

/-- The scenario of C1: "678,0h50m" yields 678 steps and 50 minutes. -/
theorem parsePackage_wellformed_witness :
    parsePackage "678,0h50m" = .ok (678, 50 * Minute) :=
  (parsePackage_wellformed "0h50m" (50 * Minute) (by decide) (by decide) (by decide)).1
    "678" 678 (by decide) (by decide) (by decide)

/-- C2: an input whose number of comma-separated fields is not the arity of
the mode (2 for `parsePackage`, 3 for `parseTraining`) fails with the error
that wraps `ErrSliceLen`, whatever the fields hold; `TrainingInfo` passes the
error of `parseTraining` on. -/
theorem fieldCount_mismatch (data : String) :
    ((Split data).length ≠ 2 →
      parsePackage data = .error (.sliceLen data (Split data) (Split data).length 2)) ∧
    ((Split data).length ≠ 3 →
      parseTraining data = .error (.sliceLen data (Split data) (Split data).length 3) ∧
      ∀ (k : Common) (weight height : ℚ), TrainingInfo k data weight height =
        ("", some (.sliceLen data (Split data) (Split data).length 3))) ∧
    ∀ n, (Err.sliceLen data (Split data) (Split data).length n).kind = Sentinel.ErrSliceLen := by
  refine ⟨?_, ?_, fun _ => rfl⟩
  · intro h
    simp [parsePackage, h]
  · intro h
    have hp : parseTraining data =
        .error (.sliceLen data (Split data) (Split data).length 3) := by
      simp [parseTraining, h]
    exact ⟨hp, fun k w hgt => by simp [TrainingInfo, hp]⟩

/-- The scenario of C2: "3456,Walking" has two fields and is rejected in full
mode with `ErrSliceLen`; the three-field "1,2,3" is rejected in steps-only mode. -/
theorem fieldCount_mismatch_witness :
    parseTraining "3456,Walking" =
      .error (.sliceLen "3456,Walking" ["3456", "Walking"] 2 3) ∧
    parsePackage "1,2,3" = .error (.sliceLen "1,2,3" ["1", "2", "3"] 3 2) :=
  ⟨((fieldCount_mismatch "3456,Walking").2.1 (by decide)).1,
    (fieldCount_mismatch "1,2,3").1 (by decide)⟩

/-- C7: a record with the right number of fields (2 in steps-only mode, 3 in
full mode) whose first field `strconv.Atoi` reads as a value `steps ≤ 0` fails
with the steps error that wraps `ErrParamLimitExceeded`, whatever the other
fields hold. -/
theorem steps_nonpositive_rejected (data : String) (steps : Int)
    (hsteps : Atoi ((Split data).getD 0 "") = some steps) (hle : steps ≤ 0) :
    ((Split data).length = 2 → parsePackage data = .error (.stepsLimit steps)) ∧
    ((Split data).length = 3 → parseTraining data = .error (.stepsLimit steps)) ∧
    (Err.stepsLimit steps).kind = Sentinel.ErrParamLimitExceeded := by
  refine ⟨?_, ?_, rfl⟩
  · intro h
    unfold parsePackage
    simp only []
    rw [if_neg (not_not.mpr h), hsteps]
    simp only [hle, if_true]
  · intro h
    unfold parseTraining
    simp only []
    rw [if_neg (not_not.mpr h), hsteps]
    simp only [hle, if_true]

/-- The scenario of C7: "0,3h00m" fails on steps in steps-only mode, and so
does a full record with a negative count and unusable other fields. -/
theorem steps_nonpositive_rejected_witness :
    parsePackage "0,3h00m" = .error (.stepsLimit 0) ∧
    parseTraining "-5, ,x" = .error (.stepsLimit (-5)) :=
  ⟨(steps_nonpositive_rejected "0,3h00m" 0 (by decide) (by decide)).1 (by decide),
    (steps_nonpositive_rejected "-5, ,x" (-5) (by decide) (by decide)).2.1 (by decide)⟩

/-- What a successful `parsePackage` returns: the values the two fields parse to. -/
theorem parsePackage_ok (data : String) (steps : Int) (dur : Duration)
    (h : parsePackage data = .ok (steps, dur)) :
    (Split data).length = 2 ∧ Atoi ((Split data).getD 0 "") = some steps ∧ 0 < steps ∧
    ParseDuration ((Split data).getD 1 "") = some dur ∧ 0 < dur := by
  unfold parsePackage at h
  simp only [] at h
  split at h
  · cases h
  · rename_i hlen
    split at h
    · cases h
    · rename_i st hst
      split at h
      · cases h
      · rename_i hpos
        split at h
        · cases h
        · rename_i du hdu
          split at h
          · cases h
          · rename_i hdpos
            simp only [Except.ok.injEq, Prod.mk.injEq] at h
            obtain ⟨rfl, rfl⟩ := h
            exact ⟨not_not.mp hlen, hst, not_le.mp hpos, hdu, not_le.mp hdpos⟩

/-- What a successful `parseTraining` returns: the values the fields parse to,
the label being the trimmed middle field. -/
theorem parseTraining_ok (data : String) (steps : Int) (act : String) (dur : Duration)
    (h : parseTraining data = .ok (steps, act, dur)) :
    (Split data).length = 3 ∧ Atoi ((Split data).getD 0 "") = some steps ∧ 0 < steps ∧
    act = TrimSpace ((Split data).getD 1 "") ∧ act ≠ "" ∧
    ParseDuration ((Split data).getD 2 "") = some dur ∧ 0 < dur := by
  unfold parseTraining at h
  simp only [] at h
  split at h
  · cases h
  · rename_i hlen
    split at h
    · cases h
    · rename_i st hst
      split at h
      · cases h
      · rename_i hpos
        split at h
        · cases h
        · rename_i hact
          split at h
          · cases h
          · rename_i du hdu
            split at h
            · cases h
            · rename_i hdpos
              simp only [Except.ok.injEq, Prod.mk.injEq] at h
              obtain ⟨rfl, rfl, rfl⟩ := h
              exact ⟨not_not.mp hlen, hst, not_le.mp hpos, rfl,
                fun e => hact ((utf8ByteSize_eq_zero_iff _).mpr e), hdu, not_le.mp hdpos⟩

/-- C10: when `parsePackage` or `parseTraining` succeeds, the steps returned
are the value read from the first field and are positive, the duration
returned is the value read from the last field and is positive (nothing is
clamped), and the label `parseTraining` returns is non-empty and neither
starts nor ends with white space. -/
theorem parse_success_invariants (data : String) :
    (∀ steps dur, parsePackage data = .ok (steps, dur) →
      0 < steps ∧ 0 < dur ∧ Atoi ((Split data).getD 0 "") = some steps ∧
      ParseDuration ((Split data).getD 1 "") = some dur) ∧
    (∀ steps act dur, parseTraining data = .ok (steps, act, dur) →
      0 < steps ∧ 0 < dur ∧ Atoi ((Split data).getD 0 "") = some steps ∧
      ParseDuration ((Split data).getD 2 "") = some dur ∧
      act ≠ "" ∧ 0 < act.length ∧
      (∀ c, act.data.head? = some c → isSpace c = false) ∧
      (∀ c, act.data.getLast? = some c → isSpace c = false)) := by
  constructor
  · intro steps dur h
    obtain ⟨_, h1, h2, h3, h4⟩ := parsePackage_ok data steps dur h
    exact ⟨h2, h4, h1, h3⟩
  · intro steps act dur h
    obtain ⟨_, h1, h2, h3, h4, h5, h6⟩ := parseTraining_ok data steps act dur h
    refine ⟨h2, h6, h1, h5, h4, ?_, ?_, ?_⟩
    · rcases act with ⟨l⟩
      cases l with
      | nil => exact absurd rfl h4
      | cons a as => simp [String.length]
    · rw [h3]; exact (TrimSpace_ends _).1
    · rw [h3]; exact (TrimSpace_ends _).2

/-- Instances of C10: the two sample records parse to positive values, the
padded label coming back trimmed. -/
theorem parse_success_invariants_witness :
    ((0 : Int) < 678 ∧ (0 : Int) < 50 * Minute ∧ Atoi ((Split "678,0h50m").getD 0 "") = some 678 ∧
      ParseDuration ((Split "678,0h50m").getD 1 "") = some (50 * Minute)) ∧
    parseTraining "3456, Бег ,3h00m" = .ok (3456, "Бег", 3 * Hour) ∧ "Бег" ≠ "" :=
  ⟨(parse_success_invariants "678,0h50m").1 678 (50 * Minute) (by decide),
    by decide,
    ((parse_success_invariants "3456, Бег ,3h00m").2 3456 "Бег" (3 * Hour) (by decide)).2.2.2.2.1⟩


/-! ## The calculator -/

/-- C6: `meanSpeed` is total; it is exactly `0` whenever `steps ≤ 0` or
`duration.Hours() ≤ 0`, and otherwise the distance of the steps at that height
divided by `duration.Hours()`. -/
theorem meanSpeed_spec (k : Common) (steps : Int) (height : ℚ) (duration : Duration) :
    ((steps ≤ 0 ∨ duration.Hours ≤ 0) → meanSpeed k steps height duration = 0) ∧
    (¬ (steps ≤ 0 ∨ duration.Hours ≤ 0) →
      meanSpeed k steps height duration = distance k steps height / duration.Hours) := by
  constructor
  · intro h
    unfold meanSpeed
    by_cases hs : steps ≤ 0
    · simp [hs]
    · have hd : duration.Hours ≤ 0 := h.resolve_left hs
      simp [hs, hd]
  · intro h
    push_neg at h
    unfold meanSpeed
    simp [not_le.mpr h.1, not_le.mpr h.2]

/-- Instances of C6: no steps, and a zero duration, give speed `0`; 3456 steps
in three hours give the distance over `3`. -/
theorem meanSpeed_spec_witness :
    meanSpeed sampleCommon 0 185 (3 * Hour) = 0 ∧
    meanSpeed sampleCommon 3456 185 0 = 0 ∧
    meanSpeed sampleCommon 3456 185 (3 * Hour) =
      distance sampleCommon 3456 185 / Duration.Hours (3 * Hour) :=
  ⟨(meanSpeed_spec sampleCommon 0 185 (3 * Hour)).1 (Or.inl (le_refl 0)),
    (meanSpeed_spec sampleCommon 3456 185 0).1
      (Or.inr (by rw [Duration.Hours_eq]; norm_num)),
    (meanSpeed_spec sampleCommon 3456 185 (3 * Hour)).2 (by
      rw [Duration.Hours_eq]
      norm_num [Hour, Minute, Second, Millisecond, Microsecond, Nanosecond])⟩

/-- C9: for a fixed height `> 0`, with `StepLengthCoefficient ≥ 0` and
`MinKm > 0`, `distance` is non-decreasing in the steps; and `distance` is
`steps × (height × StepLengthCoefficient) / MinKm`. -/
theorem distance_monotone (k : Common) (height : ℚ) (s1 s2 : Int)
    (hh : 0 < height) (hc : 0 ≤ k.StepLengthCoefficient) (hm : 0 < k.MinKm)
    (h : s1 ≤ s2) :
    distance k s1 height ≤ distance k s2 height ∧
    ∀ (steps : Int) (hgt : ℚ),
      distance k steps hgt = (steps : ℚ) * (hgt * k.StepLengthCoefficient) / k.MinKm := by
  constructor
  · unfold distance
    simp only []
    have hq : (s1 : ℚ) ≤ (s2 : ℚ) := by exact_mod_cast h
    have hl : 0 ≤ k.StepLengthCoefficient * height := mul_nonneg hc hh.le
    exact div_le_div_of_nonneg_right (mul_le_mul_of_nonneg_left hq hl) hm.le
  · intro steps hgt
    unfold distance
    ring

/-- An instance of C9 at the sample constants: 100 steps against 3456 steps at
height 185. -/
theorem distance_monotone_witness :
    distance sampleCommon 100 185 ≤ distance sampleCommon 3456 185 ∧
    ∀ (steps : Int) (hgt : ℚ), distance sampleCommon steps hgt =
      (steps : ℚ) * (hgt * sampleCommon.StepLengthCoefficient) / sampleCommon.MinKm :=
  distance_monotone sampleCommon 185 100 3456 (by norm_num)
    (by norm_num [sampleCommon]) (by norm_num [sampleCommon]) (by decide)

/-- C5: `WalkingSpentCalories` fails exactly when `RunningSpentCalories` fails
on the same arguments, with the same error; and it succeeds exactly when the
running computation succeeds, with the running result multiplied by
`WalkingCaloriesCoefficient`. -/
theorem walking_scales_running (k : Common) (steps : Int) (weight height : ℚ)
    (duration : Duration) :
    (∀ e, WalkingSpentCalories k steps weight height duration = .error e ↔
      RunningSpentCalories k steps weight height duration = .error e) ∧
    (∀ c, RunningSpentCalories k steps weight height duration = .ok c →
      WalkingSpentCalories k steps weight height duration =
        .ok (c * k.WalkingCaloriesCoefficient)) ∧
    (∀ w, WalkingSpentCalories k steps weight height duration = .ok w →
      ∃ c, RunningSpentCalories k steps weight height duration = .ok c ∧
        w = c * k.WalkingCaloriesCoefficient) := by
  unfold WalkingSpentCalories
  cases hr : RunningSpentCalories k steps weight height duration with
  | error e0 => simp
  | ok c0 => simp [eq_comm]

/-- Instances of C5 at the sample constants: a zero weight fails both
computations with the weight error. -/
theorem walking_scales_running_witness :
    WalkingSpentCalories sampleCommon 3456 0 185 (3 * Hour) = .error (.weightLimit 0) :=
  ((walking_scales_running sampleCommon 3456 0 185 (3 * Hour)).1 (.weightLimit 0)).2
    (by simp [RunningSpentCalories])


/-- When one of weight, height, duration is `≤ 0`, `RunningSpentCalories` and
`WalkingSpentCalories` fail, with one and the same error, which wraps
`ErrParamLimitExceeded`. -/
theorem RunningSpentCalories_violation (k : Common) (steps : Int) (weight height : ℚ)
    (duration : Duration) (hv : weight ≤ 0 ∨ height ≤ 0 ∨ duration ≤ 0) :
    ∃ e, RunningSpentCalories k steps weight height duration = .error e ∧
      WalkingSpentCalories k steps weight height duration = .error e ∧
      e.kind = Sentinel.ErrParamLimitExceeded := by
  have key : ∃ e, RunningSpentCalories k steps weight height duration = .error e ∧
      e.kind = Sentinel.ErrParamLimitExceeded := by
    unfold RunningSpentCalories
    by_cases hs : steps ≤ 0
    · exact ⟨.stepsLimit steps, by rw [if_pos hs], rfl⟩
    · by_cases hw : weight ≤ 0
      · exact ⟨.weightLimit weight, by rw [if_neg hs, if_pos hw], rfl⟩
      · by_cases hh : height ≤ 0
        · exact ⟨.heightLimit height, by rw [if_neg hs, if_neg hw, if_pos hh], rfl⟩
        · have hd : duration ≤ 0 := by
            rcases hv with h | h | h
            · exact absurd h hw
            · exact absurd h hh
            · exact h
          exact ⟨.durationLimit duration,
            by rw [if_neg hs, if_neg hw, if_neg hh, if_pos hd], rfl⟩
  obtain ⟨e, he, hk⟩ := key
  exact ⟨e, he, by simp [WalkingSpentCalories, he], hk⟩

/-- C4 (as amended): whenever one of weight, height, duration is `≤ 0`,
`RunningSpentCalories` fails with an error that wraps `ErrParamLimitExceeded`,
and `WalkingSpentCalories` fails with the same error; the checks run in the
order steps, weight, height, duration and the error names the first parameter
that is `≤ 0`, so it names a parameter exactly when the ones checked before it
are positive. -/
theorem running_rejects_first_violation (k : Common) (steps : Int) (weight height : ℚ)
    (duration : Duration) :
    ((weight ≤ 0 ∨ height ≤ 0 ∨ duration ≤ 0) →
      ∃ e, RunningSpentCalories k steps weight height duration = .error e ∧
        WalkingSpentCalories k steps weight height duration = .error e ∧
        e.kind = Sentinel.ErrParamLimitExceeded) ∧
    (steps ≤ 0 →
      RunningSpentCalories k steps weight height duration = .error (.stepsLimit steps)) ∧
    (0 < steps → weight ≤ 0 →
      RunningSpentCalories k steps weight height duration = .error (.weightLimit weight)) ∧
    (0 < steps → 0 < weight → height ≤ 0 →
      RunningSpentCalories k steps weight height duration = .error (.heightLimit height)) ∧
    (0 < steps → 0 < weight → 0 < height → duration ≤ 0 →
      RunningSpentCalories k steps weight height duration =
        .error (.durationLimit duration)) := by
  have h1 : steps ≤ 0 →
      RunningSpentCalories k steps weight height duration = .error (.stepsLimit steps) := by
    intro h; simp [RunningSpentCalories, h]
  have h2 : 0 < steps → weight ≤ 0 →
      RunningSpentCalories k steps weight height duration = .error (.weightLimit weight) := by
    intro hs h; simp [RunningSpentCalories, not_le.mpr hs, h]
  have h3 : 0 < steps → 0 < weight → height ≤ 0 →
      RunningSpentCalories k steps weight height duration = .error (.heightLimit height) := by
    intro hs hw h; simp [RunningSpentCalories, not_le.mpr hs, not_le.mpr hw, h]
  have h4 : 0 < steps → 0 < weight → 0 < height → duration ≤ 0 →
      RunningSpentCalories k steps weight height duration =
        .error (.durationLimit duration) := by
    intro hs hw hh h
    simp [RunningSpentCalories, not_le.mpr hs, not_le.mpr hw, not_le.mpr hh, h]
  exact ⟨RunningSpentCalories_violation k steps weight height duration, h1, h2, h3, h4⟩

/-- Instances of C4 as amended: with valid steps and weight, a zero height is
reported as the height error; a zero duration alone as the duration error. -/
theorem running_rejects_first_violation_witness :
    RunningSpentCalories sampleCommon 3456 85 0 (3 * Hour) = .error (.heightLimit 0) ∧
    RunningSpentCalories sampleCommon 3456 85 185 0 = .error (.durationLimit 0) ∧
    (∃ e, RunningSpentCalories sampleCommon 0 85 185 0 = .error e ∧
      WalkingSpentCalories sampleCommon 0 85 185 0 = .error e ∧
      e.kind = Sentinel.ErrParamLimitExceeded) :=
  ⟨(running_rejects_first_violation sampleCommon 3456 85 0 (3 * Hour)).2.2.2.1
      (by decide) (by norm_num) (le_refl 0),
    (running_rejects_first_violation sampleCommon 3456 85 185 0).2.2.2.2
      (by decide) (by norm_num) (by norm_num) (le_refl 0),
    (running_rejects_first_violation sampleCommon 0 85 185 0).1 (Or.inr (Or.inr (le_refl 0)))⟩

/-- C4 as stated fails: with weight `0` and height `0` the error names the
weight only, not the height; with steps `0` and weight `0` it names the steps,
not the weight. -/
theorem running_names_each_violation_counterexample :
    RunningSpentCalories sampleCommon 1 0 0 Hour = .error (.weightLimit 0) ∧
    RunningSpentCalories sampleCommon 1 0 0 Hour ≠ .error (.heightLimit 0) ∧
    RunningSpentCalories sampleCommon 0 0 185 Hour = .error (.stepsLimit 0) ∧
    RunningSpentCalories sampleCommon 0 0 185 Hour ≠ .error (.weightLimit 0) := by
  have a : RunningSpentCalories sampleCommon 1 0 0 Hour = .error (.weightLimit 0) := by
    simp [RunningSpentCalories]
  have b : RunningSpentCalories sampleCommon 0 0 185 Hour = .error (.stepsLimit 0) := by
    simp [RunningSpentCalories]
  refine ⟨a, ?_, b, ?_⟩
  · rw [a]; intro h; cases h
  · rw [b]; intro h; cases h

/-- C3 (as amended): for a full-mode record that parses and whose trimmed label
is neither of the two recognized labels, and for every weight and height,
`TrainingInfo` returns the empty string and the error that names that label;
the error wraps `ErrParamLimitExceeded`, the sentinel of the out-of-range
errors, which differs from the sentinels of the parsing errors `ErrSliceLen`,
`ErrParseInt`, `ErrParseDuration` and `ErrEmptyString`. -/
theorem unknown_activity_rejected (k : Common) (data : String) (weight height : ℚ)
    (steps : Int) (act : String) (dur : Duration)
    (hp : parseTraining data = .ok (steps, act, dur))
    (hw : act ≠ "Ходьба") (hr : act ≠ "Бег") :
    TrainingInfo k data weight height = ("", some (.unknownActivity act)) ∧
    (Err.unknownActivity act).kind = Sentinel.ErrParamLimitExceeded ∧
    (Err.unknownActivity act).kind ≠ Sentinel.ErrSliceLen ∧
    (Err.unknownActivity act).kind ≠ Sentinel.ErrParseInt ∧
    (Err.unknownActivity act).kind ≠ Sentinel.ErrParseDuration ∧
    (Err.unknownActivity act).kind ≠ Sentinel.ErrEmptyString := by
  refine ⟨?_, rfl, by simp [Err.kind], by simp [Err.kind], by simp [Err.kind],
    by simp [Err.kind]⟩
  simp [TrainingInfo, hp, hw, hr]

/-- The scenario of C3: "3456,Dancing,3h00m" is rejected with the error naming
"Dancing". -/
theorem unknown_activity_rejected_witness :
    TrainingInfo sampleCommon "3456,Dancing,3h00m" 85 185 =
      ("", some (.unknownActivity "Dancing")) :=
  (unknown_activity_rejected sampleCommon "3456,Dancing,3h00m" 85 185 3456 "Dancing"
    (3 * Hour) (by decide) (by decide) (by decide)).1

/-- C3 as stated fails: the error for the unknown label "Dancing" is of no
kind of its own; it wraps `ErrParamLimitExceeded`, as the out-of-range error
that the same record with zero steps gets. -/
theorem unknown_activity_kind_counterexample :
    (TrainingInfo sampleCommon "3456,Dancing,3h00m" 85 185).2 =
      some (.unknownActivity "Dancing") ∧
    (TrainingInfo sampleCommon "0,Dancing,3h00m" 85 185).2 = some (.stepsLimit 0) ∧
    (Err.unknownActivity "Dancing").kind = (Err.stepsLimit 0).kind ∧
    (TrainingInfo sampleCommon "3456,Dancing,3h00m" 85 185).2.map Err.kind =
      (TrainingInfo sampleCommon "0,Dancing,3h00m" 85 185).2.map Err.kind := by
  have a : parseTraining "3456,Dancing,3h00m" = .ok (3456, "Dancing", 3 * Hour) := by decide
  have b : parseTraining "0,Dancing,3h00m" = .error (.stepsLimit 0) := by decide
  have c : ("Dancing" : String) ≠ "Ходьба" := by decide
  have d : ("Dancing" : String) ≠ "Бег" := by decide
  have e1 : TrainingInfo sampleCommon "3456,Dancing,3h00m" 85 185 =
      ("", some (.unknownActivity "Dancing")) := by
    simp [TrainingInfo, a, c, d]
  have e2 : TrainingInfo sampleCommon "0,Dancing,3h00m" 85 185 =
      ("", some (.stepsLimit 0)) := by
    simp [TrainingInfo, b]
  rw [e1, e2]
  exact ⟨rfl, rfl, rfl, rfl⟩

/-- With all four parameters positive `RunningSpentCalories` returns the value
of its formula. -/
theorem RunningSpentCalories_ok (k : Common) (steps : Int) (weight height : ℚ)
    (duration : Duration) (hs : 0 < steps) (hw : 0 < weight) (hh : 0 < height)
    (hd : 0 < duration) :
    RunningSpentCalories k steps weight height duration =
      .ok ((weight * meanSpeed k steps height duration * duration.Minutes) / k.MinInH) := by
  simp [RunningSpentCalories, not_le.mpr hs, not_le.mpr hw, not_le.mpr hh, not_le.mpr hd]

/-- A record that parses, with a recognized label and positive weight and
height, gets the summary and the nil error. -/
theorem TrainingInfo_ok (k : Common) (data : String) (weight height : ℚ)
    (steps : Int) (act : String) (dur : Duration)
    (hp : parseTraining data = .ok (steps, act, dur))
    (ha : act = "Ходьба" ∨ act = "Бег") (hw : 0 < weight) (hh : 0 < height) :
    ∃ cal, TrainingInfo k data weight height =
      ("Тип тренировки: " ++ act ++ "\n" ++
        "Длительность: " ++ fmtF2 dur.Hours ++ " ч.\n" ++
        "Дистанция: " ++ fmtF2 (distance k steps height) ++ " км.\n" ++
        "Скорость: " ++ fmtF2 (meanSpeed k steps height dur) ++ " км/ч\n" ++
        "Сожгли калорий: " ++ fmtF2 cal ++ "\n", none) ∧
      (act = "Ходьба" → WalkingSpentCalories k steps weight height dur = .ok cal) ∧
      (act = "Бег" → RunningSpentCalories k steps weight height dur = .ok cal) := by
  obtain ⟨_, _, hs, _, _, _, hd⟩ := parseTraining_ok data steps act dur hp
  have hr := RunningSpentCalories_ok k steps weight height dur hs hw hh hd
  have hne : ("Бег" : String) ≠ "Ходьба" := by decide
  rcases ha with ha | ha
  · subst ha
    refine ⟨(weight * meanSpeed k steps height dur * dur.Minutes) / k.MinInH *
      k.WalkingCaloriesCoefficient, ?_, fun _ => by simp only [WalkingSpentCalories, hr],
      fun h => absurd h.symm hne⟩
    simp only [TrainingInfo, hp, WalkingSpentCalories, hr, if_true]
  · subst ha
    refine ⟨(weight * meanSpeed k steps height dur * dur.Minutes) / k.MinInH, ?_,
      fun h => absurd h hne, fun _ => hr⟩
    simp only [TrainingInfo, hp, hr, if_neg hne, if_true]

/-- A record that parses with a recognized label is rejected when the weight
or the height is not positive. -/
theorem TrainingInfo_limit (k : Common) (data : String) (weight height : ℚ)
    (steps : Int) (act : String) (dur : Duration)
    (hp : parseTraining data = .ok (steps, act, dur))
    (ha : act = "Ходьба" ∨ act = "Бег") (hv : weight ≤ 0 ∨ height ≤ 0) :
    ∃ e, TrainingInfo k data weight height = ("", some e) := by
  obtain ⟨e, he, hwalk, _⟩ :=
    RunningSpentCalories_violation k steps weight height dur
      (hv.elim Or.inl (fun h => Or.inr (Or.inl h)))
  have hne : ("Бег" : String) ≠ "Ходьба" := by decide
  rcases ha with ha | ha
  · subst ha
    exact ⟨e, by simp only [TrainingInfo, hp, hwalk, if_true]⟩
  · subst ha
    exact ⟨e, by simp only [TrainingInfo, hp, he, if_neg hne, if_true]⟩

/-- With positive steps and hours `meanSpeed` takes its quotient branch. -/
theorem meanSpeed_pos_aux (k : Common) (steps : Int) (height : ℚ) (duration : Duration)
    (hs : 0 < steps) (hd : 0 < duration.Hours) :
    meanSpeed k steps height duration = distance k steps height / duration.Hours := by
  simp [meanSpeed, not_le.mpr hs, not_le.mpr hd]

/-- On numbers: `TrainingInfo` returns the nil error exactly when the record
parses in full mode, its trimmed label is one of the two recognized labels, and weight
and height are positive; with the nil error the summary is non-empty, and with
an error the string is empty. With positive constants, the walking record of
3456 steps and `3h00m` at weight 85 and height 185 gets a summary whose
duration field is `3.00`, with positive distance, mean speed and calories. -/
theorem TrainingInfo_success_iff (k : Common) (data : String) (weight height : ℚ) :
    ((TrainingInfo k data weight height).2 = none ↔
      ∃ steps act dur, parseTraining data = .ok (steps, act, dur) ∧
        (act = "Ходьба" ∨ act = "Бег") ∧ 0 < weight ∧ 0 < height) ∧
    ((TrainingInfo k data weight height).2 = none →
      (TrainingInfo k data weight height).1 ≠ "") ∧
    ((TrainingInfo k data weight height).2 ≠ none →
      (TrainingInfo k data weight height).1 = "") ∧
    (0 < k.StepLengthCoefficient → 0 < k.MinKm → 0 < k.MinInH →
      0 < k.WalkingCaloriesCoefficient →
      parseTraining "3456,Ходьба,3h00m" = .ok (3456, "Ходьба", 3 * Hour) ∧
      Duration.Hours (3 * Hour) = 3 ∧ fmtF2 (Duration.Hours (3 * Hour)) = "3.00" ∧
      0 < distance k 3456 185 ∧ 0 < meanSpeed k 3456 185 (3 * Hour) ∧
      ∃ cal, WalkingSpentCalories k 3456 85 185 (3 * Hour) = .ok cal ∧ 0 < cal ∧
        TrainingInfo k "3456,Ходьба,3h00m" 85 185 =
          ("Тип тренировки: " ++ "Ходьба" ++ "\n" ++
            "Длительность: " ++ "3.00" ++ " ч.\n" ++
            "Дистанция: " ++ fmtF2 (distance k 3456 185) ++ " км.\n" ++
            "Скорость: " ++ fmtF2 (meanSpeed k 3456 185 (3 * Hour)) ++ " км/ч\n" ++
            "Сожгли калорий: " ++ fmtF2 cal ++ "\n", none)) := by
  have hiff : (TrainingInfo k data weight height).2 = none ↔
      ∃ steps act dur, parseTraining data = .ok (steps, act, dur) ∧
        (act = "Ходьба" ∨ act = "Бег") ∧ 0 < weight ∧ 0 < height := by
    constructor
    · intro h
      cases hp : parseTraining data with
      | error e => simp [TrainingInfo, hp] at h
      | ok r =>
        obtain ⟨steps, act, dur⟩ := r
        by_cases ha : act = "Ходьба" ∨ act = "Бег"
        · by_cases hv : weight ≤ 0 ∨ height ≤ 0
          · obtain ⟨e, he⟩ := TrainingInfo_limit k data weight height steps act dur hp ha hv
            rw [he] at h
            cases h
          · push_neg at hv
            exact ⟨steps, act, dur, rfl, ha, hv.1, hv.2⟩
        · push_neg at ha
          simp [TrainingInfo, hp, ha.1, ha.2] at h
    · rintro ⟨steps, act, dur, hp, ha, hw, hh⟩
      obtain ⟨cal, hc, _⟩ := TrainingInfo_ok k data weight height steps act dur hp ha hw hh
      rw [hc]
  refine ⟨hiff, ?_, ?_, ?_⟩
  · intro h
    obtain ⟨steps, act, dur, hp, ha, hw, hh⟩ := hiff.mp h
    obtain ⟨cal, hc, _⟩ := TrainingInfo_ok k data weight height steps act dur hp ha hw hh
    rw [hc]
    repeat apply append_ne_empty
    decide
  · intro h
    cases hp : parseTraining data with
    | error e => simp [TrainingInfo, hp]
    | ok r =>
      obtain ⟨steps, act, dur⟩ := r
      by_cases ha : act = "Ходьба" ∨ act = "Бег"
      · by_cases hv : weight ≤ 0 ∨ height ≤ 0
        · obtain ⟨e, he⟩ := TrainingInfo_limit k data weight height steps act dur hp ha hv
          rw [he]
        · push_neg at hv
          exact absurd (hiff.mpr ⟨steps, act, dur, hp, ha, hv.1, hv.2⟩) h
      · push_neg at ha
        simp [TrainingInfo, hp, ha.1, ha.2]
  · intro hc hm hi hwc
    have hp : parseTraining "3456,Ходьба,3h00m" = .ok (3456, "Ходьба", 3 * Hour) := by decide
    have hH : Duration.Hours (3 * Hour) = 3 := by
      rw [Duration.Hours_eq]
      norm_num [Hour, Minute, Second, Millisecond, Microsecond, Nanosecond]
    have hM : Duration.Minutes (3 * Hour) = 180 := by
      rw [Duration.Minutes_eq]
      norm_num [Hour, Minute, Second, Millisecond, Microsecond, Nanosecond]
    have hdist : 0 < distance k 3456 185 := by
      unfold distance
      positivity
    have hspeed : 0 < meanSpeed k 3456 185 (3 * Hour) := by
      have := (meanSpeed_pos_aux k 3456 185 (3 * Hour) (by decide) (by rw [hH]; norm_num))
      rw [this, hH]
      positivity
    obtain ⟨cal, hcal, hwalk, _⟩ := TrainingInfo_ok k "3456,Ходьба,3h00m" 85 185 3456
      "Ходьба" (3 * Hour) hp (Or.inl rfl) (by norm_num) (by norm_num)
    have hw := hwalk rfl
    have hr := RunningSpentCalories_ok k 3456 85 185 (3 * Hour) (by decide) (by norm_num)
      (by norm_num) (by decide)
    have hcalpos : 0 < cal := by
      simp only [WalkingSpentCalories, hr, Except.ok.injEq] at hw
      rw [← hw, hM]
      positivity
    refine ⟨hp, hH, by rw [hH]; exact fmtF2_three, hdist, hspeed, cal, hw, hcalpos, ?_⟩
    rw [hcal, hH, fmtF2_three]

/-- Instances on numbers at the sample constants: the walking record of 3456 steps
and `3h00m` at weight 85 and height 185 gets a non-empty summary with the nil
error, its duration rendered `3.00` and its distance, speed and calories
positive; the same record at weight 0 gets an error and the empty string. -/
theorem TrainingInfo_success_iff_witness :
    (TrainingInfo sampleCommon "3456,Ходьба,3h00m" 85 185).2 = none ∧
    (TrainingInfo sampleCommon "3456,Ходьба,3h00m" 85 185).1 ≠ "" ∧
    (TrainingInfo sampleCommon "3456,Ходьба,3h00m" 0 185).2 ≠ none ∧
    (TrainingInfo sampleCommon "3456,Ходьба,3h00m" 0 185).1 = "" ∧
    fmtF2 (Duration.Hours (3 * Hour)) = "3.00" ∧
    0 < distance sampleCommon 3456 185 ∧ 0 < meanSpeed sampleCommon 3456 185 (3 * Hour) ∧
    ∃ cal, WalkingSpentCalories sampleCommon 3456 85 185 (3 * Hour) = .ok cal ∧ 0 < cal := by
  have T := TrainingInfo_success_iff sampleCommon "3456,Ходьба,3h00m" 85 185
  have T0 := TrainingInfo_success_iff sampleCommon "3456,Ходьба,3h00m" 0 185
  have hp : parseTraining "3456,Ходьба,3h00m" = .ok (3456, "Ходьба", 3 * Hour) := by decide
  have h2 := T.1.mpr ⟨3456, "Ходьба", 3 * Hour, hp, Or.inl rfl, by norm_num, by norm_num⟩
  have h0 : (TrainingInfo sampleCommon "3456,Ходьба,3h00m" 0 185).2 ≠ none := by
    intro h
    obtain ⟨_, _, _, _, _, hw, _⟩ := T0.1.mp h
    exact lt_irrefl 0 hw
  obtain ⟨_, _, h3, h4, h5, cal, h6, h7, _⟩ := T.2.2.2 (by norm_num [sampleCommon])
    (by norm_num [sampleCommon]) (by norm_num [sampleCommon]) (by norm_num [sampleCommon])
  exact ⟨h2, T.2.1 h2, h0, T0.2.2.1 h0, h3, h4, h5, cal, h6, h7⟩

/-! ## The parser: the failure paths -/

/-- C11: a record with the right number of fields whose first field is not a
valid base-10 integer literal (an optional sign, then decimal digits, within
the `int` range) fails in `parsePackage` and in `parseTraining` with the error
that wraps `ErrParseInt`, whatever the other fields hold. -/
theorem invalid_steps_rejected (data : String)
    (hbad : validIntLiteral ((Split data).getD 0 "") = false) :
    ((Split data).length = 2 →
      parsePackage data = .error (.parseSteps ((Split data).getD 0 ""))) ∧
    ((Split data).length = 3 →
      parseTraining data = .error (.parseSteps ((Split data).getD 0 ""))) ∧
    (Err.parseSteps ((Split data).getD 0 "")).kind = Sentinel.ErrParseInt := by
  have hnone := (Atoi_eq_none_iff _).mpr hbad
  refine ⟨?_, ?_, rfl⟩
  · intro h
    unfold parsePackage
    simp only []
    rw [if_neg (not_not.mpr h), hnone]
  · intro h
    unfold parseTraining
    simp only []
    rw [if_neg (not_not.mpr h), hnone]

/-- Instances of C11: a decimal point, a leading space, an empty field, a
letter and a number beyond the `int` range in the steps field. -/
theorem invalid_steps_rejected_witness :
    parsePackage "1.5,1h" = .error (.parseSteps "1.5") ∧
    parseTraining " 5,x,y" = .error (.parseSteps " 5") ∧
    parsePackage ",1h" = .error (.parseSteps "") ∧
    parseTraining "12a,Бег,1h" = .error (.parseSteps "12a") ∧
    parsePackage "9223372036854775808,1h" = .error (.parseSteps "9223372036854775808") :=
  ⟨(invalid_steps_rejected "1.5,1h" (by decide)).1 (by decide),
    (invalid_steps_rejected " 5,x,y" (by decide)).2.1 (by decide),
    (invalid_steps_rejected ",1h" (by decide)).1 (by decide),
    (invalid_steps_rejected "12a,Бег,1h" (by decide)).2.1 (by decide),
    (invalid_steps_rejected "9223372036854775808,1h" (by decide)).1 (by decide)⟩

/-- C12: for a record with the right number of fields, a steps field read as
`steps > 0` and, in full mode, a label that is not blank: when the duration
field is no duration literal the parse fails with the error that wraps
`ErrParseDuration`; when it is a literal of value `≤ 0` the parse fails with
the duration error that wraps `ErrParamLimitExceeded`. -/
theorem duration_rejected (data : String) (steps : Int)
    (hsteps : Atoi ((Split data).getD 0 "") = some steps) (hpos : 0 < steps) :
    ((Split data).length = 2 →
      (ParseDuration ((Split data).getD 1 "") = none →
        parsePackage data = .error (.parseDuration ((Split data).getD 1 ""))) ∧
      (∀ d, ParseDuration ((Split data).getD 1 "") = some d → d ≤ 0 →
        parsePackage data = .error (.durationLimit d))) ∧
    ((Split data).length = 3 → isBlank ((Split data).getD 1 "") = false →
      (ParseDuration ((Split data).getD 2 "") = none →
        parseTraining data = .error (.parseDuration ((Split data).getD 2 ""))) ∧
      (∀ d, ParseDuration ((Split data).getD 2 "") = some d → d ≤ 0 →
        parseTraining data = .error (.durationLimit d))) ∧
    (∀ f, (Err.parseDuration f).kind = Sentinel.ErrParseDuration) ∧
    (∀ d, (Err.durationLimit d).kind = Sentinel.ErrParamLimitExceeded) := by
  refine ⟨?_, ?_, fun _ => rfl, fun _ => rfl⟩
  · intro h
    constructor
    · intro hd
      unfold parsePackage
      simp only []
      rw [if_neg (not_not.mpr h), hsteps]
      simp only []
      rw [if_neg (not_le.mpr hpos), hd]
    · intro d hd hle
      unfold parsePackage
      simp only []
      rw [if_neg (not_not.mpr h), hsteps]
      simp only []
      rw [if_neg (not_le.mpr hpos), hd]
      simp only []
      rw [if_pos hle]
  · intro h hb
    have hne : ¬ (TrimSpace ((Split data).getD 1 "")).utf8ByteSize = 0 := by
      intro h0
      have := (TrimSpace_eq_empty_iff _).mp ((utf8ByteSize_eq_zero_iff _).mp h0)
      rw [hb] at this
      cases this
    constructor
    · intro hd
      unfold parseTraining
      simp only []
      rw [if_neg (not_not.mpr h), hsteps]
      simp only []
      rw [if_neg (not_le.mpr hpos), if_neg hne, hd]
    · intro d hd hle
      unfold parseTraining
      simp only []
      rw [if_neg (not_not.mpr h), hsteps]
      simp only []
      rw [if_neg (not_le.mpr hpos), if_neg hne, hd]
      simp only []
      rw [if_pos hle]

/-- Instances of C12: "0h0m" and "-1h" are literals of value `≤ 0`; "50" (no
unit) and "abc" are no literals. -/
theorem duration_rejected_witness :
    parsePackage "5,0h0m" = .error (.durationLimit 0) ∧
    parsePackage "5,-1h" = .error (.durationLimit (-Hour)) ∧
    parsePackage "5,50" = .error (.parseDuration "50") ∧
    parseTraining "5,Бег,-1h" = .error (.durationLimit (-Hour)) ∧
    parseTraining "5,Бег,abc" = .error (.parseDuration "abc") :=
  ⟨((duration_rejected "5,0h0m" 5 (by decide) (by decide)).1 (by decide)).2 0
      (by decide) (by decide),
    ((duration_rejected "5,-1h" 5 (by decide) (by decide)).1 (by decide)).2 (-Hour)
      (by decide) (by decide),
    ((duration_rejected "5,50" 5 (by decide) (by decide)).1 (by decide)).1 (by decide),
    ((duration_rejected "5,Бег,-1h" 5 (by decide) (by decide)).2.1 (by decide)
      (by decide)).2 (-Hour) (by decide) (by decide),
    ((duration_rejected "5,Бег,abc" 5 (by decide) (by decide)).2.1 (by decide)
      (by decide)).1 (by decide)⟩

/-- On a record of three comma-free fields `parseTraining` looks at the label
only through its trimmed text. -/
theorem parseTraining_congr_label (s l l1 d : String) (hs : ',' ∉ s.data)
    (hl : ',' ∉ l.data) (hl1 : ',' ∉ l1.data) (hd : ',' ∉ d.data)
    (h : TrimSpace l = TrimSpace l1) :
    parseTraining (s ++ "," ++ l ++ "," ++ d) = parseTraining (s ++ "," ++ l1 ++ "," ++ d) := by
  have e1 := Split_three s l d hs hl hd
  have e2 := Split_three s l1 d hs hl1 hd
  simp [parseTraining, e1, e2, h]

/-- C13: a three-field record whose steps field is read as `steps > 0` and
whose activity field is blank (empty or white space only) fails in
`parseTraining` with the error that wraps `ErrEmptyString`; the label of a
successfully parsed record is the activity field trimmed; and a record whose
activity field trims to a recognized label is treated by `TrainingInfo` as the
record with that label unpadded. -/
theorem blank_activity_rejected (data : String) :
    (∀ steps, (Split data).length = 3 → Atoi ((Split data).getD 0 "") = some steps →
      0 < steps → isBlank ((Split data).getD 1 "") = true →
      parseTraining data = .error .activityEmpty) ∧
    Err.activityEmpty.kind = Sentinel.ErrEmptyString ∧
    (∀ steps act dur, parseTraining data = .ok (steps, act, dur) →
      act = TrimSpace ((Split data).getD 1 "")) ∧
    (∀ (k : Common) (weight height : ℚ) (s l d : String), ',' ∉ s.data → ',' ∉ l.data →
      ',' ∉ d.data → data = s ++ "," ++ l ++ "," ++ d →
      (TrimSpace l = "Ходьба" →
        TrainingInfo k data weight height =
          TrainingInfo k (s ++ "," ++ "Ходьба" ++ "," ++ d) weight height) ∧
      (TrimSpace l = "Бег" →
        TrainingInfo k data weight height =
          TrainingInfo k (s ++ "," ++ "Бег" ++ "," ++ d) weight height)) ∧
    (∀ (k : Common) (weight height : ℚ) steps act dur,
      parseTraining data = .ok (steps, act, dur) →
      (act = "Ходьба" → (TrainingInfo k data weight height).2 =
        (match WalkingSpentCalories k steps weight height dur with
          | .error e => some e
          | .ok _ => none)) ∧
      (act = "Бег" → (TrainingInfo k data weight height).2 =
        (match RunningSpentCalories k steps weight height dur with
          | .error e => some e
          | .ok _ => none))) := by
  refine ⟨?_, rfl, ?_, ?_, ?_⟩
  · intro steps hlen hsteps hpos hb
    have h0 : (TrimSpace ((Split data).getD 1 "")).utf8ByteSize = 0 :=
      (utf8ByteSize_eq_zero_iff _).mpr ((TrimSpace_eq_empty_iff _).mpr hb)
    unfold parseTraining
    simp only []
    rw [if_neg (not_not.mpr hlen), hsteps]
    simp only []
    rw [if_neg (not_le.mpr hpos), if_pos h0]
  · intro steps act dur h
    exact (parseTraining_ok data steps act dur h).2.2.2.1
  · intro k weight height s l d hs hl hd hdata
    subst hdata
    constructor
    · intro ht
      have := parseTraining_congr_label s l "Ходьба" d hs hl (by decide) hd
        (by rw [ht]; decide)
      simp only [TrainingInfo, this]
    · intro ht
      have := parseTraining_congr_label s l "Бег" d hs hl (by decide) hd
        (by rw [ht]; decide)
      simp only [TrainingInfo, this]
  · intro k weight height steps act dur hp
    have hne : ("Бег" : String) ≠ "Ходьба" := by decide
    constructor
    · intro ha
      subst ha
      simp only [TrainingInfo, hp, if_true]
      cases WalkingSpentCalories k steps weight height dur <;> rfl
    · intro ha
      subst ha
      simp only [TrainingInfo, hp, if_neg hne, if_true]
      cases RunningSpentCalories k steps weight height dur <;> rfl

/-- Instances of C13: a label of spaces and tabs is rejected as empty; the
padded label " Бег " comes back trimmed and the record is treated as the
running record. -/
theorem blank_activity_rejected_witness :
    parseTraining "3456, \t ,3h00m" = .error .activityEmpty ∧
    parseTraining "3456,,3h00m" = .error .activityEmpty ∧
    ("Бег" : String) = TrimSpace ((Split "3456, Бег ,3h00m").getD 1 "") ∧
    TrainingInfo sampleCommon "3456, Бег ,3h00m" 85 185 =
      TrainingInfo sampleCommon "3456,Бег,3h00m" 85 185 :=
  ⟨(blank_activity_rejected "3456, \t ,3h00m").1 3456 (by decide) (by decide) (by decide)
      (by decide),
    (blank_activity_rejected "3456,,3h00m").1 3456 (by decide) (by decide) (by decide)
      (by decide),
    (blank_activity_rejected "3456, Бег ,3h00m").2.2.1 3456 "Бег" (3 * Hour) (by decide),
    ((blank_activity_rejected "3456, Бег ,3h00m").2.2.2.1 sampleCommon 85 185 "3456" " Бег "
      "3h00m" (by decide) (by decide) (by decide) (by decide)).2 (by decide)⟩

/-- C15: the two modes apply the same rules to the steps and duration fields:
for comma-free texts `s`, `d` and a comma-free label `l` that is not blank,
`parseTraining` on `s,l,d` succeeds exactly when `parsePackage` on `s,d`
succeeds, then with the same steps and duration (and the trimmed label), and
otherwise both fail with the same error, hence the same kind. -/
theorem modes_agree (s l d : String) (hs : ',' ∉ s.data) (hl : ',' ∉ l.data)
    (hd : ',' ∉ d.data) (hb : isBlank l = false) :
    (∀ steps dur, parsePackage (s ++ "," ++ d) = .ok (steps, dur) ↔
      parseTraining (s ++ "," ++ l ++ "," ++ d) = .ok (steps, TrimSpace l, dur)) ∧
    (∀ steps act dur, parseTraining (s ++ "," ++ l ++ "," ++ d) = .ok (steps, act, dur) →
      parsePackage (s ++ "," ++ d) = .ok (steps, dur)) ∧
    (∀ e, parsePackage (s ++ "," ++ d) = .error e ↔
      parseTraining (s ++ "," ++ l ++ "," ++ d) = .error e) ∧
    (∀ e1 e2, parsePackage (s ++ "," ++ d) = .error e1 →
      parseTraining (s ++ "," ++ l ++ "," ++ d) = .error e2 → e1.kind = e2.kind) := by
  have e2 := Split_two s d hs hd
  have e3 := Split_three s l d hs hl hd
  have hne : ¬ (TrimSpace l).utf8ByteSize = 0 := by
    intro h0
    have := (TrimSpace_eq_empty_iff _).mp ((utf8ByteSize_eq_zero_iff _).mp h0)
    rw [hb] at this
    cases this
  have hP : parsePackage (s ++ "," ++ d) =
      match Atoi s with
      | none => .error (.parseSteps s)
      | some steps =>
        if steps ≤ 0 then .error (.stepsLimit steps)
        else
          match ParseDuration d with
          | none => .error (.parseDuration d)
          | some duration =>
            if duration ≤ 0 then .error (.durationLimit duration)
            else .ok (steps, duration) := by
    simp [parsePackage, e2]
  have hT : parseTraining (s ++ "," ++ l ++ "," ++ d) =
      match Atoi s with
      | none => .error (.parseSteps s)
      | some steps =>
        if steps ≤ 0 then .error (.stepsLimit steps)
        else
          match ParseDuration d with
          | none => .error (.parseDuration d)
          | some duration =>
            if duration ≤ 0 then .error (.durationLimit duration)
            else .ok (steps, TrimSpace l, duration) := by
    simp [parseTraining, e3, hne]
  rw [hP, hT]
  cases Atoi s with
  | none => simp
  | some st =>
    by_cases h1 : st ≤ 0
    · simp [h1]
    · cases ParseDuration d with
      | none => simp [h1]
      | some du =>
        by_cases h2 : du ≤ 0
        · simp [h1, h2]
        · simp only [h1, h2, if_false, Except.ok.injEq, Prod.mk.injEq]
          refine ⟨?_, ?_, ?_, ?_⟩
          · intro steps dur
            simp
          · intro steps act dur h
            exact ⟨h.1, h.2.2⟩
          · intro e
            constructor <;> (intro h; cases h)
          · intro e1 e2 h
            cases h

/-- Instances of C15: the sample record parses alike in both modes, and a
record with zero steps fails alike. -/
theorem modes_agree_witness :
    (parsePackage "678,0h50m" = .ok (678, 50 * Minute) ↔
      parseTraining "678, Бег,0h50m" = .ok (678, TrimSpace " Бег", 50 * Minute)) ∧
    (parsePackage "0,0h50m" = .error (.stepsLimit 0) ↔
      parseTraining "0, Бег,0h50m" = .error (.stepsLimit 0)) :=
  ⟨(modes_agree "678" " Бег" "0h50m" (by decide) (by decide) (by decide) (by decide)).1
      678 (50 * Minute),
    (modes_agree "0" " Бег" "0h50m" (by decide) (by decide) (by decide) (by decide)).2.2.1
      (.stepsLimit 0)⟩

/-- C16: the error of `parseTraining` is that of the first failing check in
the order: field count (`ErrSliceLen`), steps literal (`ErrParseInt`),
steps `> 0` (`ErrParamLimitExceeded`), label not blank (`ErrEmptyString`),
duration literal (`ErrParseDuration`), duration `> 0` (`ErrParamLimitExceeded`);
each outcome is decided by the checks up to it alone, whatever the later
fields hold, and when all pass the record is returned. `parsePackage` follows
the same order without the label check. -/
theorem first_failing_check (data : String) :
    (((Split data).length ≠ 3 →
        ∃ e, parseTraining data = .error e ∧ e.kind = Sentinel.ErrSliceLen) ∧
      ((Split data).length = 3 → validIntLiteral ((Split data).getD 0 "") = false →
        ∃ e, parseTraining data = .error e ∧ e.kind = Sentinel.ErrParseInt) ∧
      (∀ steps, (Split data).length = 3 → Atoi ((Split data).getD 0 "") = some steps →
        (steps ≤ 0 →
          ∃ e, parseTraining data = .error e ∧ e.kind = Sentinel.ErrParamLimitExceeded) ∧
        (0 < steps → isBlank ((Split data).getD 1 "") = true →
          ∃ e, parseTraining data = .error e ∧ e.kind = Sentinel.ErrEmptyString) ∧
        (0 < steps → isBlank ((Split data).getD 1 "") = false →
          ParseDuration ((Split data).getD 2 "") = none →
          ∃ e, parseTraining data = .error e ∧ e.kind = Sentinel.ErrParseDuration) ∧
        (∀ dur, 0 < steps → isBlank ((Split data).getD 1 "") = false →
          ParseDuration ((Split data).getD 2 "") = some dur →
          (dur ≤ 0 →
            ∃ e, parseTraining data = .error e ∧ e.kind = Sentinel.ErrParamLimitExceeded) ∧
          (0 < dur →
            parseTraining data = .ok (steps, TrimSpace ((Split data).getD 1 ""), dur))))) ∧
    (((Split data).length ≠ 2 →
        ∃ e, parsePackage data = .error e ∧ e.kind = Sentinel.ErrSliceLen) ∧
      ((Split data).length = 2 → validIntLiteral ((Split data).getD 0 "") = false →
        ∃ e, parsePackage data = .error e ∧ e.kind = Sentinel.ErrParseInt) ∧
      (∀ steps, (Split data).length = 2 → Atoi ((Split data).getD 0 "") = some steps →
        (steps ≤ 0 →
          ∃ e, parsePackage data = .error e ∧ e.kind = Sentinel.ErrParamLimitExceeded) ∧
        (0 < steps → ParseDuration ((Split data).getD 1 "") = none →
          ∃ e, parsePackage data = .error e ∧ e.kind = Sentinel.ErrParseDuration) ∧
        (∀ dur, 0 < steps → ParseDuration ((Split data).getD 1 "") = some dur →
          (dur ≤ 0 →
            ∃ e, parsePackage data = .error e ∧ e.kind = Sentinel.ErrParamLimitExceeded) ∧
          (0 < dur → parsePackage data = .ok (steps, dur))))) := by
  constructor
  · refine ⟨?_, ?_, ?_⟩
    · intro h
      exact ⟨.sliceLen data (Split data) (Split data).length 3,
        by simp [parseTraining, h], rfl⟩
    · intro h hbad
      have hnone := (Atoi_eq_none_iff _).mpr hbad
      refine ⟨.parseSteps ((Split data).getD 0 ""), ?_, rfl⟩
      unfold parseTraining
      simp only []
      rw [if_neg (not_not.mpr h), hnone]
    · intro steps h hsteps
      have hunf : parseTraining data =
          if steps ≤ 0 then .error (.stepsLimit steps)
          else
            if (TrimSpace ((Split data).getD 1 "")).utf8ByteSize = 0 then .error .activityEmpty
            else
              match ParseDuration ((Split data).getD 2 "") with
              | none => .error (.parseDuration ((Split data).getD 2 ""))
              | some duration =>
                if duration ≤ 0 then .error (.durationLimit duration)
                else .ok (steps, TrimSpace ((Split data).getD 1 ""), duration) := by
        unfold parseTraining
        simp only []
        rw [if_neg (not_not.mpr h), hsteps]
      have hblank : ∀ b, isBlank ((Split data).getD 1 "") = b →
          ((TrimSpace ((Split data).getD 1 "")).utf8ByteSize = 0 ↔ b = true) := by
        intro b hb
        rw [utf8ByteSize_eq_zero_iff, TrimSpace_eq_empty_iff, hb]
      refine ⟨?_, ?_, ?_, ?_⟩
      · intro hle
        exact ⟨.stepsLimit steps, by rw [hunf, if_pos hle], rfl⟩
      · intro hpos hb
        exact ⟨.activityEmpty,
          by rw [hunf, if_neg (not_le.mpr hpos), if_pos ((hblank _ hb).mpr rfl)], rfl⟩
      · intro hpos hb hd
        have hnb : ¬ (TrimSpace ((Split data).getD 1 "")).utf8ByteSize = 0 :=
          fun h0 => Bool.noConfusion ((hblank _ hb).mp h0)
        exact ⟨.parseDuration ((Split data).getD 2 ""),
          by rw [hunf, if_neg (not_le.mpr hpos), if_neg hnb, hd], rfl⟩
      · intro dur hpos hb hd
        have hnb : ¬ (TrimSpace ((Split data).getD 1 "")).utf8ByteSize = 0 :=
          fun h0 => Bool.noConfusion ((hblank _ hb).mp h0)
        constructor
        · intro hle
          refine ⟨.durationLimit dur, ?_, rfl⟩
          rw [hunf, if_neg (not_le.mpr hpos), if_neg hnb, hd]
          simp only []
          rw [if_pos hle]
        · intro hdpos
          rw [hunf, if_neg (not_le.mpr hpos), if_neg hnb, hd]
          simp only []
          rw [if_neg (not_le.mpr hdpos)]
  · refine ⟨?_, ?_, ?_⟩
    · intro h
      exact ⟨.sliceLen data (Split data) (Split data).length 2,
        by simp [parsePackage, h], rfl⟩
    · intro h hbad
      have hnone := (Atoi_eq_none_iff _).mpr hbad
      refine ⟨.parseSteps ((Split data).getD 0 ""), ?_, rfl⟩
      unfold parsePackage
      simp only []
      rw [if_neg (not_not.mpr h), hnone]
    · intro steps h hsteps
      have hunf : parsePackage data =
          if steps ≤ 0 then .error (.stepsLimit steps)
          else
            match ParseDuration ((Split data).getD 1 "") with
            | none => .error (.parseDuration ((Split data).getD 1 ""))
            | some duration =>
              if duration ≤ 0 then .error (.durationLimit duration)
              else .ok (steps, duration) := by
        unfold parsePackage
        simp only []
        rw [if_neg (not_not.mpr h), hsteps]
      refine ⟨?_, ?_, ?_⟩
      · intro hle
        exact ⟨.stepsLimit steps, by rw [hunf, if_pos hle], rfl⟩
      · intro hpos hd
        exact ⟨.parseDuration ((Split data).getD 1 ""),
          by rw [hunf, if_neg (not_le.mpr hpos), hd], rfl⟩
      · intro dur hpos hd
        constructor
        · intro hle
          refine ⟨.durationLimit dur, ?_, rfl⟩
          rw [hunf, if_neg (not_le.mpr hpos), hd]
          simp only []
          rw [if_pos hle]
        · intro hdpos
          rw [hunf, if_neg (not_le.mpr hpos), hd]
          simp only []
          rw [if_neg (not_le.mpr hdpos)]

/-- Instances of C16: with steps that are no integer, a blank label and an
unusable duration the error is the steps one; with valid steps, a blank label
and an unusable duration it is the empty-label one; four fields with unusable
contents give the field-count error. -/
theorem first_failing_check_witness :
    (∃ e, parseTraining "x, ,y" = .error e ∧ e.kind = Sentinel.ErrParseInt) ∧
    (∃ e, parseTraining "5, ,y" = .error e ∧ e.kind = Sentinel.ErrEmptyString) ∧
    (∃ e, parseTraining "x, ,y,z" = .error e ∧ e.kind = Sentinel.ErrSliceLen) ∧
    (∃ e, parsePackage "0,y" = .error e ∧ e.kind = Sentinel.ErrParamLimitExceeded) :=
  ⟨(first_failing_check "x, ,y").1.2.1 (by decide) (by decide),
    ((first_failing_check "5, ,y").1.2.2 5 (by decide) (by decide)).2.1 (by decide)
      (by decide),
    (first_failing_check "x, ,y,z").1.1 (by decide),
    ((first_failing_check "0,y").2.2.2 0 (by decide) (by decide)).1 (by decide)⟩


/-! ## The calculator: the formulas -/

/-- C14: with steps, weight, height and duration all positive,
`RunningSpentCalories` succeeds and returns
`(weight × meanSpeed × duration.Minutes()) / MinInH`, where neither guard of
`meanSpeed` is taken, so that `meanSpeed` is the distance divided by
`duration.Hours()`. -/
theorem running_formula (k : Common) (steps : Int) (weight height : ℚ)
    (duration : Duration) (hs : 0 < steps) (hw : 0 < weight) (hh : 0 < height)
    (hd : 0 < duration) :
    RunningSpentCalories k steps weight height duration =
      .ok ((weight * meanSpeed k steps height duration * duration.Minutes) / k.MinInH) ∧
    ¬ steps ≤ 0 ∧ ¬ duration.Hours ≤ 0 ∧
    meanSpeed k steps height duration = distance k steps height / duration.Hours ∧
    RunningSpentCalories k steps weight height duration =
      .ok ((weight * (distance k steps height / duration.Hours) * duration.Minutes) /
        k.MinInH) := by
  have hH : 0 < duration.Hours := (Duration.Hours_pos_iff duration).mpr hd
  have hm := meanSpeed_pos_aux k steps height duration hs hH
  have hr := RunningSpentCalories_ok k steps weight height duration hs hw hh hd
  refine ⟨hr, not_le.mpr hs, not_le.mpr hH, hm, ?_⟩
  rw [hr, hm]

/-- An instance of C14 at the sample constants: 3456 steps, weight 85, height
185, three hours. -/
theorem running_formula_witness :
    RunningSpentCalories sampleCommon 3456 85 185 (3 * Hour) =
      .ok ((85 * meanSpeed sampleCommon 3456 185 (3 * Hour) * Duration.Minutes (3 * Hour)) /
        sampleCommon.MinInH) :=
  (running_formula sampleCommon 3456 85 185 (3 * Hour) (by decide) (by norm_num)
    (by norm_num) (by decide)).1

/-- C18: over exact arithmetic with `MinInH = 60`, for positive steps, weight,
height and duration `RunningSpentCalories` returns `weight × distance(steps,
height)`; the duration cancels, so two calls that differ only in their
positive durations return the same calories. -/
theorem running_independent_of_duration (k : Common) (steps : Int) (weight height : ℚ)
    (d1 d2 : Duration) (hM : k.MinInH = 60) (hs : 0 < steps) (hw : 0 < weight)
    (hh : 0 < height) (hd1 : 0 < d1) (hd2 : 0 < d2) :
    RunningSpentCalories k steps weight height d1 =
      .ok (weight * distance k steps height) ∧
    RunningSpentCalories k steps weight height d1 =
      RunningSpentCalories k steps weight height d2 := by
  have key : ∀ d : Duration, 0 < d →
      RunningSpentCalories k steps weight height d =
        .ok (weight * distance k steps height) := by
    intro d hd
    have hH : 0 < d.Hours := (Duration.Hours_pos_iff d).mpr hd
    rw [RunningSpentCalories_ok k steps weight height d hs hw hh hd,
      meanSpeed_pos_aux k steps height d hs hH, Duration.Hours_eq, Duration.Minutes_eq, hM]
    have hq : (d : ℚ) ≠ 0 := by
      have : (0 : ℚ) < (d : ℚ) := by exact_mod_cast hd
      exact ne_of_gt this
    congr 1
    field_simp
    ring
  exact ⟨key d1 hd1, by rw [key d1 hd1, key d2 hd2]⟩

/-- An instance of C18 at the sample constants: three hours and fifty minutes
give the same calories, the weight times the distance. -/
theorem running_independent_of_duration_witness :
    RunningSpentCalories sampleCommon 3456 85 185 (3 * Hour) =
      .ok (85 * distance sampleCommon 3456 185) ∧
    RunningSpentCalories sampleCommon 3456 85 185 (3 * Hour) =
      RunningSpentCalories sampleCommon 3456 85 185 (50 * Minute) :=
  running_independent_of_duration sampleCommon 3456 85 185 (3 * Hour) (50 * Minute) rfl
    (by decide) (by norm_num) (by norm_num) (by decide) (by decide)


/-! ## The message of a day -/

/-- A steps-only record that parses, with positive weight and height, gets the
message built from the steps, the distance at the average stride and the
walking calories. -/
theorem DayActionInfo_ok (k : Common) (data : String) (weight height : ℚ)
    (steps : Int) (dur : Duration) (hp : parsePackage data = .ok (steps, dur))
    (hw : 0 < weight) (hh : 0 < height) :
    WalkingSpentCalories k steps weight height dur =
      .ok ((weight * meanSpeed k steps height dur * dur.Minutes) / k.MinInH *
        k.WalkingCaloriesCoefficient) ∧
    DayActionInfo k data weight height =
      "Количество шагов: " ++ fmtD steps ++ ".\n" ++
        "Дистанция составила " ++ fmtF2 ((steps : ℚ) * k.StepLength / k.MinKm) ++ " км.\n" ++
        "Вы сожгли " ++ fmtF2 ((weight * meanSpeed k steps height dur * dur.Minutes) /
          k.MinInH * k.WalkingCaloriesCoefficient) ++ " ккал.\n" := by
  obtain ⟨_, _, hs, _, hd⟩ := parsePackage_ok data steps dur hp
  have hr := RunningSpentCalories_ok k steps weight height dur hs hw hh hd
  have hwalk : WalkingSpentCalories k steps weight height dur =
      .ok ((weight * meanSpeed k steps height dur * dur.Minutes) / k.MinInH *
        k.WalkingCaloriesCoefficient) := by
    simp only [WalkingSpentCalories, hr]
  refine ⟨hwalk, ?_⟩
  simp only [DayActionInfo, hp, if_neg (not_le.mpr hs), hwalk]

/-- A steps-only record is answered with the empty string when it does not
parse, or when the weight or the height is not positive. -/
theorem DayActionInfo_empty (k : Common) (data : String) (weight height : ℚ)
    (h : (∃ e, parsePackage data = .error e) ∨ weight ≤ 0 ∨ height ≤ 0) :
    DayActionInfo k data weight height = "" := by
  cases hp : parsePackage data with
  | error e => simp only [DayActionInfo, hp]
  | ok r =>
    obtain ⟨steps, dur⟩ := r
    have hv : weight ≤ 0 ∨ height ≤ 0 := by
      rcases h with ⟨e, he⟩ | h
      · rw [hp] at he
        cases he
      · exact h
    obtain ⟨e, _, hwalk, _⟩ := RunningSpentCalories_violation k steps weight height dur
      (hv.elim Or.inl (fun h => Or.inr (Or.inl h)))
    by_cases hs : steps ≤ 0
    · simp only [DayActionInfo, hp, if_pos hs]
    · simp only [DayActionInfo, hp, if_neg hs, hwalk]

/-- C17: for a steps-only record that parses and positive weight and height,
the distance `DayActionInfo` reports is `steps × StepLength / MinKm`: the
average stride, with neither the height nor the weight in it. -/
theorem DayActionInfo_distance (k : Common) (data : String) (weight height : ℚ)
    (steps : Int) (dur : Duration) (hp : parsePackage data = .ok (steps, dur))
    (hw : 0 < weight) (hh : 0 < height) :
    ∃ cal, WalkingSpentCalories k steps weight height dur = .ok cal ∧
      DayActionInfo k data weight height =
        "Количество шагов: " ++ fmtD steps ++ ".\n" ++
          "Дистанция составила " ++ fmtF2 ((steps : ℚ) * k.StepLength / k.MinKm) ++
          " км.\n" ++ "Вы сожгли " ++ fmtF2 cal ++ " ккал.\n" := by
  obtain ⟨h1, h2⟩ := DayActionInfo_ok k data weight height steps dur hp hw hh
  exact ⟨_, h1, h2⟩

/-- The scenario of C17 at the sample constants: "678,0h50m" at weight 75 and
height 175 reports the distance `678 × StepLength / MinKm`. -/
theorem DayActionInfo_distance_witness :
    ∃ cal, WalkingSpentCalories sampleCommon 678 75 175 (50 * Minute) = .ok cal ∧
      DayActionInfo sampleCommon "678,0h50m" 75 175 =
        "Количество шагов: " ++ fmtD 678 ++ ".\n" ++
          "Дистанция составила " ++
          fmtF2 (((678 : Int) : ℚ) * sampleCommon.StepLength / sampleCommon.MinKm) ++
          " км.\n" ++ "Вы сожгли " ++ fmtF2 cal ++ " ккал.\n" :=
  DayActionInfo_distance sampleCommon "678,0h50m" 75 175 678 (50 * Minute) (by decide)
    (by norm_num) (by norm_num)

/-- C19: `DayActionInfo` returns the empty string exactly when `parsePackage`
fails or the weight or the height is not positive; otherwise it returns a
non-empty message whose calories are those of `WalkingSpentCalories`, computed
from the stride `height × StepLengthCoefficient`, while the distance it
reports uses `StepLength`. After a successful parse the steps are positive, so
the `steps ≤ 0` guard is never taken. -/
theorem DayActionInfo_empty_iff (k : Common) (data : String) (weight height : ℚ) :
    (DayActionInfo k data weight height = "" ↔
      (∃ e, parsePackage data = .error e) ∨ weight ≤ 0 ∨ height ≤ 0) ∧
    (∀ steps dur, parsePackage data = .ok (steps, dur) → 0 < weight → 0 < height →
      ∃ cal, WalkingSpentCalories k steps weight height dur = .ok cal ∧
        cal = (weight * (distance k steps height / dur.Hours) * dur.Minutes) / k.MinInH *
          k.WalkingCaloriesCoefficient ∧
        distance k steps height = (k.StepLengthCoefficient * height) * (steps : ℚ) / k.MinKm ∧
        DayActionInfo k data weight height ≠ "" ∧
        DayActionInfo k data weight height =
          "Количество шагов: " ++ fmtD steps ++ ".\n" ++
            "Дистанция составила " ++ fmtF2 ((steps : ℚ) * k.StepLength / k.MinKm) ++
            " км.\n" ++ "Вы сожгли " ++ fmtF2 cal ++ " ккал.\n") ∧
    (∀ steps dur, parsePackage data = .ok (steps, dur) → ¬ steps ≤ 0) := by
  have hok : ∀ steps dur, parsePackage data = .ok (steps, dur) → 0 < weight → 0 < height →
      DayActionInfo k data weight height ≠ "" := by
    intro steps dur hp hw hh
    rw [(DayActionInfo_ok k data weight height steps dur hp hw hh).2]
    repeat apply append_ne_empty
    decide
  refine ⟨⟨?_, DayActionInfo_empty k data weight height⟩, ?_, ?_⟩
  · intro h
    by_contra hn
    push_neg at hn
    obtain ⟨hne, hw, hh⟩ := hn
    cases hp : parsePackage data with
    | error e => exact hne e hp
    | ok r =>
      obtain ⟨steps, dur⟩ := r
      exact hok steps dur hp hw hh h
  · intro steps dur hp hw hh
    obtain ⟨_, _, hs, _, hd⟩ := parsePackage_ok data steps dur hp
    obtain ⟨h1, h2⟩ := DayActionInfo_ok k data weight height steps dur hp hw hh
    have hH : 0 < dur.Hours := (Duration.Hours_pos_iff dur).mpr hd
    have hm := meanSpeed_pos_aux k steps height dur hs hH
    refine ⟨_, h1, by rw [hm], rfl, hok steps dur hp hw hh, h2⟩
  · intro steps dur hp
    exact not_le.mpr (parsePackage_ok data steps dur hp).2.2.1

/-- Instances of C19 at the sample constants: "678,0h50m" gets a non-empty
message at weight 75 and height 175, and the empty string at height 0; a
record with zero steps gets the empty string. -/
theorem DayActionInfo_empty_iff_witness :
    DayActionInfo sampleCommon "678,0h50m" 75 175 ≠ "" ∧
    DayActionInfo sampleCommon "678,0h50m" 75 0 = "" ∧
    DayActionInfo sampleCommon "0,0h50m" 75 175 = "" := by
  obtain ⟨_, _, _, _, h, _⟩ := (DayActionInfo_empty_iff sampleCommon "678,0h50m" 75 175).2.1
    678 (50 * Minute) (by decide) (by norm_num) (by norm_num)
  exact ⟨h,
    (DayActionInfo_empty_iff sampleCommon "678,0h50m" 75 0).1.mpr (Or.inr (Or.inr (le_refl 0))),
    (DayActionInfo_empty_iff sampleCommon "0,0h50m" 75 175).1.mpr
      (Or.inl ⟨.stepsLimit 0, by decide⟩)⟩

/-! ## `TrainingInfo` on arguments that may be NaN -/

theorem Float64.num_mul_num (a b : ℚ) : Float64.num a * Float64.num b = Float64.num (a * b) :=
  rfl

theorem Float64.num_div_num (a b : ℚ) : Float64.num a / Float64.num b = Float64.num (a / b) :=
  rfl

theorem Float64.nan_mul (x : Float64) : Float64.nan * x = Float64.nan := by
  cases x <;> rfl

theorem Float64.mul_nan (x : Float64) : x * Float64.nan = Float64.nan := by
  cases x <;> rfl

theorem Float64.nan_div (x : Float64) : Float64.nan / x = Float64.nan := by
  cases x <;> rfl

/-- On a number the guard `x <= 0` fails exactly when the number is positive. -/
theorem Float64.leZero_num (a : ℚ) : (Float64.num a).leZero = false ↔ 0 < a := by
  simp [Float64.leZero]

/-- On numbers the functions for arguments that may be NaN are the functions
on numbers. -/
theorem F64_distance_num (k : Common) (steps : Int) (height : ℚ) :
    F64.distance k steps (Float64.num height) = Float64.num (distance k steps height) := rfl

theorem F64_meanSpeed_num (k : Common) (steps : Int) (height : ℚ) (duration : Duration) :
    F64.meanSpeed k steps (Float64.num height) duration =
      Float64.num (meanSpeed k steps height duration) := by
  unfold F64.meanSpeed meanSpeed
  simp only [F64_distance_num, Float64.num_div_num]
  split
  · rfl
  · split <;> rfl

theorem F64_RunningSpentCalories_num (k : Common) (steps : Int) (weight height : ℚ)
    (duration : Duration) :
    F64.RunningSpentCalories k steps (Float64.num weight) (Float64.num height) duration =
      (RunningSpentCalories k steps weight height duration).map Float64.num := by
  unfold F64.RunningSpentCalories RunningSpentCalories
  simp only [F64_meanSpeed_num, Float64.num_mul_num, Float64.num_div_num, Float64.leZero,
    Float64.toRat, decide_eq_true_eq]
  split
  · rfl
  · split
    · rfl
    · split
      · rfl
      · split <;> rfl

theorem F64_WalkingSpentCalories_num (k : Common) (steps : Int) (weight height : ℚ)
    (duration : Duration) :
    F64.WalkingSpentCalories k steps (Float64.num weight) (Float64.num height) duration =
      (WalkingSpentCalories k steps weight height duration).map Float64.num := by
  unfold F64.WalkingSpentCalories WalkingSpentCalories
  rw [F64_RunningSpentCalories_num]
  cases RunningSpentCalories k steps weight height duration <;> rfl

theorem F64_TrainingInfo_num (k : Common) (data : String) (weight height : ℚ) :
    F64.TrainingInfo k data (Float64.num weight) (Float64.num height) =
      TrainingInfo k data weight height := by
  unfold F64.TrainingInfo TrainingInfo
  cases parseTraining data with
  | error e => rfl
  | ok r =>
    obtain ⟨steps, act, dur⟩ := r
    simp only [F64_WalkingSpentCalories_num, F64_RunningSpentCalories_num,
      F64_distance_num, F64_meanSpeed_num]
    by_cases h1 : act = "Ходьба"
    · simp only [h1, if_true]
      cases WalkingSpentCalories k steps weight height dur <;> rfl
    · by_cases h2 : act = "Бег"
      · simp only [h1, h2, if_true, if_false]
        cases RunningSpentCalories k steps weight height dur <;> rfl
      · simp only [h1, h2, if_false]

/-- With positive steps and duration and both guards passed,
`F64.RunningSpentCalories` returns the value of its formula. -/
theorem F64_RunningSpentCalories_ok (k : Common) (steps : Int) (weight height : Float64)
    (duration : Duration) (hs : 0 < steps) (hw : weight.leZero = false)
    (hh : height.leZero = false) (hd : 0 < duration) :
    F64.RunningSpentCalories k steps weight height duration =
      .ok ((weight * F64.meanSpeed k steps height duration * Float64.num duration.Minutes) /
        Float64.num k.MinInH) := by
  simp [F64.RunningSpentCalories, not_le.mpr hs, hw, hh, not_le.mpr hd]

/-- When a guard on the weight or the height holds, both computations fail. -/
theorem F64_RunningSpentCalories_violation (k : Common) (steps : Int)
    (weight height : Float64) (duration : Duration)
    (hv : weight.leZero = true ∨ height.leZero = true) :
    ∃ e, F64.RunningSpentCalories k steps weight height duration = .error e ∧
      F64.WalkingSpentCalories k steps weight height duration = .error e := by
  have key : ∃ e, F64.RunningSpentCalories k steps weight height duration = .error e := by
    unfold F64.RunningSpentCalories
    by_cases hs : steps ≤ 0
    · exact ⟨.stepsLimit steps, by rw [if_pos hs]⟩
    · by_cases hw : weight.leZero = true
      · exact ⟨.weightLimit weight.toRat, by rw [if_neg hs, if_pos hw]⟩
      · have hh : height.leZero = true := hv.resolve_left hw
        exact ⟨.heightLimit height.toRat, by rw [if_neg hs, if_neg hw, if_pos hh]⟩
  obtain ⟨e, he⟩ := key
  exact ⟨e, he, by simp [F64.WalkingSpentCalories, he]⟩

/-- A record that parses, with a recognized label and both guards passed, gets
the summary and the nil error, also when the weight or the height is NaN. -/
theorem F64_TrainingInfo_ok (k : Common) (data : String) (weight height : Float64)
    (steps : Int) (act : String) (dur : Duration)
    (hp : parseTraining data = .ok (steps, act, dur))
    (ha : act = "Ходьба" ∨ act = "Бег") (hw : weight.leZero = false)
    (hh : height.leZero = false) :
    ∃ cal : Float64, F64.TrainingInfo k data weight height =
      ("Тип тренировки: " ++ act ++ "\n" ++
        "Длительность: " ++ fmtF2 dur.Hours ++ " ч.\n" ++
        "Дистанция: " ++ (F64.distance k steps height).fmtF2 ++ " км.\n" ++
        "Скорость: " ++ (F64.meanSpeed k steps height dur).fmtF2 ++ " км/ч\n" ++
        "Сожгли калорий: " ++ cal.fmtF2 ++ "\n", none) ∧
      (act = "Ходьба" → F64.WalkingSpentCalories k steps weight height dur = .ok cal) ∧
      (act = "Бег" → F64.RunningSpentCalories k steps weight height dur = .ok cal) := by
  obtain ⟨_, _, hs, _, _, _, hd⟩ := parseTraining_ok data steps act dur hp
  have hr := F64_RunningSpentCalories_ok k steps weight height dur hs hw hh hd
  have hne : ("Бег" : String) ≠ "Ходьба" := by decide
  rcases ha with ha | ha
  · subst ha
    refine ⟨(weight * F64.meanSpeed k steps height dur * Float64.num dur.Minutes) /
      Float64.num k.MinInH * Float64.num k.WalkingCaloriesCoefficient, ?_,
      fun _ => by simp only [F64.WalkingSpentCalories, hr], fun h => absurd h.symm hne⟩
    simp only [F64.TrainingInfo, hp, F64.WalkingSpentCalories, hr, if_true]
  · subst ha
    refine ⟨(weight * F64.meanSpeed k steps height dur * Float64.num dur.Minutes) /
      Float64.num k.MinInH, ?_, fun h => absurd h hne, fun _ => hr⟩
    simp only [F64.TrainingInfo, hp, hr, if_neg hne, if_true]

/-- A record that parses with a recognized label is rejected when the guard on
the weight or on the height holds. -/
theorem F64_TrainingInfo_limit (k : Common) (data : String) (weight height : Float64)
    (steps : Int) (act : String) (dur : Duration)
    (hp : parseTraining data = .ok (steps, act, dur))
    (ha : act = "Ходьба" ∨ act = "Бег")
    (hv : weight.leZero = true ∨ height.leZero = true) :
    ∃ e, F64.TrainingInfo k data weight height = ("", some e) := by
  obtain ⟨e, he, hwalk⟩ := F64_RunningSpentCalories_violation k steps weight height dur hv
  have hne : ("Бег" : String) ≠ "Ходьба" := by decide
  rcases ha with ha | ha
  · subst ha
    exact ⟨e, by simp only [F64.TrainingInfo, hp, hwalk, if_true]⟩
  · subst ha
    exact ⟨e, by simp only [F64.TrainingInfo, hp, he, if_neg hne, if_true]⟩

/-- C8 (as amended): `TrainingInfo` returns the nil error exactly when the
record parses in full mode, its trimmed label is one of the two recognized
labels, and neither guard `weight <= 0`, `height <= 0` holds; with the nil
error the summary is non-empty, and with an error the string is empty. On
numbers the guards fail exactly for a positive weight and height, and NaN
passes them. With positive constants, the walking record of 3456 steps and
`3h00m` at weight 85 and height 185 gets a summary whose duration field is
`3.00`, with positive distance, mean speed and calories. -/
theorem TrainingInfo_returns_iff_guards_pass (k : Common) (data : String)
    (weight height : Float64) :
    ((F64.TrainingInfo k data weight height).2 = none ↔
      ∃ steps act dur, parseTraining data = .ok (steps, act, dur) ∧
        (act = "Ходьба" ∨ act = "Бег") ∧ weight.leZero = false ∧ height.leZero = false) ∧
    ((F64.TrainingInfo k data weight height).2 = none →
      (F64.TrainingInfo k data weight height).1 ≠ "") ∧
    ((F64.TrainingInfo k data weight height).2 ≠ none →
      (F64.TrainingInfo k data weight height).1 = "") ∧
    (∀ q : ℚ, (Float64.num q).leZero = false ↔ 0 < q) ∧
    Float64.nan.leZero = false ∧
    (0 < k.StepLengthCoefficient → 0 < k.MinKm → 0 < k.MinInH →
      0 < k.WalkingCaloriesCoefficient →
      parseTraining "3456,Ходьба,3h00m" = .ok (3456, "Ходьба", 3 * Hour) ∧
      Duration.Hours (3 * Hour) = 3 ∧ fmtF2 (Duration.Hours (3 * Hour)) = "3.00" ∧
      F64.distance k 3456 (Float64.num 185) = Float64.num (distance k 3456 185) ∧
      0 < distance k 3456 185 ∧
      F64.meanSpeed k 3456 (Float64.num 185) (3 * Hour) =
        Float64.num (meanSpeed k 3456 185 (3 * Hour)) ∧
      0 < meanSpeed k 3456 185 (3 * Hour) ∧
      ∃ cal : ℚ, F64.WalkingSpentCalories k 3456 (Float64.num 85) (Float64.num 185)
          (3 * Hour) = .ok (Float64.num cal) ∧ 0 < cal ∧
        F64.TrainingInfo k "3456,Ходьба,3h00m" (Float64.num 85) (Float64.num 185) =
          ("Тип тренировки: " ++ "Ходьба" ++ "\n" ++
            "Длительность: " ++ "3.00" ++ " ч.\n" ++
            "Дистанция: " ++ fmtF2 (distance k 3456 185) ++ " км.\n" ++
            "Скорость: " ++ fmtF2 (meanSpeed k 3456 185 (3 * Hour)) ++ " км/ч\n" ++
            "Сожгли калорий: " ++ fmtF2 cal ++ "\n", none)) := by
  have hiff : (F64.TrainingInfo k data weight height).2 = none ↔
      ∃ steps act dur, parseTraining data = .ok (steps, act, dur) ∧
        (act = "Ходьба" ∨ act = "Бег") ∧ weight.leZero = false ∧
        height.leZero = false := by
    constructor
    · intro h
      cases hp : parseTraining data with
      | error e => simp [F64.TrainingInfo, hp] at h
      | ok r =>
        obtain ⟨steps, act, dur⟩ := r
        by_cases ha : act = "Ходьба" ∨ act = "Бег"
        · by_cases hv : weight.leZero = true ∨ height.leZero = true
          · obtain ⟨e, he⟩ := F64_TrainingInfo_limit k data weight height steps act dur hp ha hv
            rw [he] at h
            cases h
          · push_neg at hv
            exact ⟨steps, act, dur, rfl, ha, Bool.eq_false_iff.mpr hv.1,
              Bool.eq_false_iff.mpr hv.2⟩
        · push_neg at ha
          simp [F64.TrainingInfo, hp, ha.1, ha.2] at h
    · rintro ⟨steps, act, dur, hp, ha, hw, hh⟩
      obtain ⟨cal, hc, _⟩ := F64_TrainingInfo_ok k data weight height steps act dur hp ha hw hh
      rw [hc]
  refine ⟨hiff, ?_, ?_, Float64.leZero_num, rfl, ?_⟩
  · intro h
    obtain ⟨steps, act, dur, hp, ha, hw, hh⟩ := hiff.mp h
    obtain ⟨cal, hc, _⟩ := F64_TrainingInfo_ok k data weight height steps act dur hp ha hw hh
    rw [hc]
    repeat apply append_ne_empty
    decide
  · intro h
    cases hp : parseTraining data with
    | error e => simp [F64.TrainingInfo, hp]
    | ok r =>
      obtain ⟨steps, act, dur⟩ := r
      by_cases ha : act = "Ходьба" ∨ act = "Бег"
      · by_cases hv : weight.leZero = true ∨ height.leZero = true
        · obtain ⟨e, he⟩ := F64_TrainingInfo_limit k data weight height steps act dur hp ha hv
          rw [he]
        · push_neg at hv
          exact absurd (hiff.mpr ⟨steps, act, dur, hp, ha, Bool.eq_false_iff.mpr hv.1,
            Bool.eq_false_iff.mpr hv.2⟩) h
      · push_neg at ha
        simp [F64.TrainingInfo, hp, ha.1, ha.2]
  · intro hc hm hi hwc
    obtain ⟨hp, hH, hf, hdist, hspeed, cal, hw, hcalpos, hT⟩ :=
      (TrainingInfo_success_iff k "3456,Ходьба,3h00m" 85 185).2.2.2 hc hm hi hwc
    refine ⟨hp, hH, hf, F64_distance_num k 3456 185, hdist,
      F64_meanSpeed_num k 3456 185 (3 * Hour), hspeed, cal, ?_, hcalpos, ?_⟩
    · rw [F64_WalkingSpentCalories_num, hw]
      rfl
    · rw [F64_TrainingInfo_num, hT]

/-- Instances of C8 as amended at the sample constants: the walking record of
3456 steps and `3h00m` at weight 85 and height 185 gets a non-empty summary
with the nil error, its duration rendered `3.00` and its distance, speed and
calories positive; the same record at weight 0 gets an error and the empty
string; at a NaN height it gets the nil error. -/
theorem TrainingInfo_returns_iff_guards_pass_witness :
    (F64.TrainingInfo sampleCommon "3456,Ходьба,3h00m" (Float64.num 85)
      (Float64.num 185)).2 = none ∧
    (F64.TrainingInfo sampleCommon "3456,Ходьба,3h00m" (Float64.num 85)
      (Float64.num 185)).1 ≠ "" ∧
    (F64.TrainingInfo sampleCommon "3456,Ходьба,3h00m" (Float64.num 0)
      (Float64.num 185)).2 ≠ none ∧
    (F64.TrainingInfo sampleCommon "3456,Ходьба,3h00m" (Float64.num 0)
      (Float64.num 185)).1 = "" ∧
    (F64.TrainingInfo sampleCommon "3456,Ходьба,3h00m" (Float64.num 85) Float64.nan).2 = none ∧
    fmtF2 (Duration.Hours (3 * Hour)) = "3.00" ∧
    0 < distance sampleCommon 3456 185 ∧ 0 < meanSpeed sampleCommon 3456 185 (3 * Hour) ∧
    ∃ cal : ℚ, F64.WalkingSpentCalories sampleCommon 3456 (Float64.num 85) (Float64.num 185)
      (3 * Hour) = .ok (Float64.num cal) ∧ 0 < cal := by
  have T := TrainingInfo_returns_iff_guards_pass sampleCommon "3456,Ходьба,3h00m"
    (Float64.num 85) (Float64.num 185)
  have T0 := TrainingInfo_returns_iff_guards_pass sampleCommon "3456,Ходьба,3h00m"
    (Float64.num 0) (Float64.num 185)
  have TN := TrainingInfo_returns_iff_guards_pass sampleCommon "3456,Ходьба,3h00m"
    (Float64.num 85) Float64.nan
  have hp : parseTraining "3456,Ходьба,3h00m" = .ok (3456, "Ходьба", 3 * Hour) := by decide
  have h85 : (Float64.num 85).leZero = false := (Float64.leZero_num 85).mpr (by norm_num)
  have h185 : (Float64.num 185).leZero = false := (Float64.leZero_num 185).mpr (by norm_num)
  have h2 := T.1.mpr ⟨3456, "Ходьба", 3 * Hour, hp, Or.inl rfl, h85, h185⟩
  have h0 : (F64.TrainingInfo sampleCommon "3456,Ходьба,3h00m" (Float64.num 0)
      (Float64.num 185)).2 ≠ none := by
    intro h
    obtain ⟨_, _, _, _, _, hw, _⟩ := T0.1.mp h
    exact lt_irrefl 0 ((Float64.leZero_num 0).mp hw)
  have hN := TN.1.mpr ⟨3456, "Ходьба", 3 * Hour, hp, Or.inl rfl, h85, rfl⟩
  obtain ⟨_, _, h3, _, h4, _, h5, cal, h6, h7, _⟩ :=
    T.2.2.2.2.2 (by norm_num [sampleCommon]) (by norm_num [sampleCommon])
      (by norm_num [sampleCommon]) (by norm_num [sampleCommon])
  exact ⟨h2, T.2.1 h2, h0, T0.2.2.1 h0, hN, h3, h4, h5, cal, h6, h7⟩

/-- C8 as stated fails: at a NaN weight, which is not `> 0`, the walking record
of 3456 steps and `3h00m` at height 185 passes both guards and gets a
non-empty summary with the nil error, its calories rendered `NaN`. -/
theorem TrainingInfo_nan_weight_counterexample :
    Float64.nan.gtZero = false ∧
    (F64.TrainingInfo sampleCommon "3456,Ходьба,3h00m" Float64.nan (Float64.num 185)).2 =
      none ∧
    (F64.TrainingInfo sampleCommon "3456,Ходьба,3h00m" Float64.nan (Float64.num 185)).1 ≠
      "" ∧
    F64.TrainingInfo sampleCommon "3456,Ходьба,3h00m" Float64.nan (Float64.num 185) =
      ("Тип тренировки: " ++ "Ходьба" ++ "\n" ++
        "Длительность: " ++ "3.00" ++ " ч.\n" ++
        "Дистанция: " ++ fmtF2 (distance sampleCommon 3456 185) ++ " км.\n" ++
        "Скорость: " ++ fmtF2 (meanSpeed sampleCommon 3456 185 (3 * Hour)) ++ " км/ч\n" ++
        "Сожгли калорий: " ++ "NaN" ++ "\n", none) := by
  have hp : parseTraining "3456,Ходьба,3h00m" = .ok (3456, "Ходьба", 3 * Hour) := by decide
  have h185 : (Float64.num 185).leZero = false := (Float64.leZero_num 185).mpr (by norm_num)
  have hH : Duration.Hours (3 * Hour) = 3 := by
    rw [Duration.Hours_eq]
    norm_num [Hour, Minute, Second, Millisecond, Microsecond, Nanosecond]
  have hr := F64_RunningSpentCalories_ok sampleCommon 3456 Float64.nan (Float64.num 185)
    (3 * Hour) (by decide) rfl h185 (by decide)
  have heq : F64.TrainingInfo sampleCommon "3456,Ходьба,3h00m" Float64.nan (Float64.num 185) =
      ("Тип тренировки: " ++ "Ходьба" ++ "\n" ++
        "Длительность: " ++ "3.00" ++ " ч.\n" ++
        "Дистанция: " ++ fmtF2 (distance sampleCommon 3456 185) ++ " км.\n" ++
        "Скорость: " ++ fmtF2 (meanSpeed sampleCommon 3456 185 (3 * Hour)) ++ " км/ч\n" ++
        "Сожгли калорий: " ++ "NaN" ++ "\n", none) := by
    simp only [F64.TrainingInfo, hp, F64.WalkingSpentCalories, hr, if_true,
      F64_distance_num, F64_meanSpeed_num, Float64.nan_mul, Float64.nan_div, hH, fmtF2_three]
    rfl
  refine ⟨rfl, by rw [heq], ?_, heq⟩
  rw [heq]
  repeat apply append_ne_empty
  decide

end Sprint
